import Mathlib

/-!
# lenses-cli: configuration contexts, password encryption, login session, connectors

A shallow embedding of `cmd/lenses-cli/configure_user_command.go` and of the
`connectors` command of `cmd/lenses-cli/connector_command.go`.

Conventions of the embedding.

* A Go `[]byte`, and a Go `string` that carries user data (a password, a host,
  a cipher text), is a `List Byte` with `Byte = Fin 256`.
* A Go function returning `(T, error)` returns a `Result T`; the third
  constructor, `Result.panic`, records a run-time panic (a slice expression out
  of range), so that "never slices past the end" is a statement about values.
* The standard-library routines the commands call (`encoding/base64`,
  `crypto/cipher` CFB mode, `crypto/sha256`, `crypto/aes`) are embedded as
  executable definitions that follow the library's algorithm; known answers
  of the standards are checked on them.
* Names and messages of the command line are Lean strings; a Go `error` that a
  function returns is an `Option Error`, `none` for `nil`.
* What a command body calls outside the embedded files (the configuration
  manager, the survey prompts, `echo`, `printJSON`, the remote client, the
  command tree of cobra) is a parameter of the model, and each such call is
  recorded as an event, in order, so that "nothing is printed" or "no lookup
  happens" is a statement about the list of events.
-/

namespace LensesCli

/-! ## Bytes, errors, results -/

/-- A Go `byte`. -/
abbrev Byte := Fin 256

/-- A Go `string` holding arbitrary bytes. -/
abbrev GoString := List Byte

/-- The byte of an ASCII character. -/
def byteOfChar (c : Char) : Byte := Fin.ofNat c.toNat

/-- The bytes of an ASCII string literal. -/
def bytesOfString (s : String) : GoString := s.toList.map byteOfChar

/-- The Go `error` values that occur in the embedded functions. -/
inductive Error where
  /-- An error made by `fmt.Errorf` with this text. -/
  | errorf (text : String)
  /-- The `base64.CorruptInputError` (the byte offset it carries is not modelled). -/
  | corruptInput
  /-- The `aes.KeySizeError` for a key of this length. -/
  | keySize (n : Nat)
  /-- An error returned by a collaborator outside the embedded code (the random
  source, the survey prompts, the remote API, the configuration file). -/
  | external (text : String)
  deriving DecidableEq, Repr

/-- The outcome of a Go function that returns `(T, error)` and may panic. -/
inductive Result (α : Type) where
  | ok (value : α)
  | error (err : Error)
  | panic (what : String)
  deriving DecidableEq, Repr

/-- Whether the outcome is an `error` return. -/
def Result.isError {α : Type} : Result α → Bool
  | .error _ => true
  | _ => false

/-- Whether the outcome is a panic. -/
def Result.isPanic {α : Type} : Result α → Bool
  | .panic _ => true
  | _ => false

/-! ## `encoding/base64`, `URLEncoding` (padded, not strict) -/

/-- The alphabet `encodeURL` of `encoding/base64`. -/
def encodeURL : List Byte :=
  bytesOfString "ABCDEFGHIJKLMNOPQRSTUVWXYZabcdefghijklmnopqrstuvwxyz0123456789-_"

/-- The padding character `StdPadding`, `'='`. -/
def padChar : Byte := 61

/-- The table lookup `enc.encode[i]`. -/
def encodeChar (i : Nat) : Byte := encodeURL.getD i 0

/-- The table lookup `enc.decodeMap[c]`: the position of `c` in the alphabet,
`none` where the table holds `0xFF`. -/
def decodeMap (c : Byte) : Option Nat :=
  if encodeURL.indexOf c < encodeURL.length then some (encodeURL.indexOf c) else none

/-- `Encoding.Encode`: three source bytes give four characters; a remainder of
one or two bytes gives two or three characters and padding. -/
def base64Encode : List Byte → List Byte
  | [] => []
  | [a] =>
    let val := a.val <<< 16
    [encodeChar (val >>> 18 &&& 0x3F), encodeChar (val >>> 12 &&& 0x3F), padChar, padChar]
  | [a, b] =>
    let val := a.val <<< 16 ||| b.val <<< 8
    [encodeChar (val >>> 18 &&& 0x3F), encodeChar (val >>> 12 &&& 0x3F),
      encodeChar (val >>> 6 &&& 0x3F), padChar]
  | a :: b :: c :: rest =>
    let val := a.val <<< 16 ||| b.val <<< 8 ||| c.val
    encodeChar (val >>> 18 &&& 0x3F) :: encodeChar (val >>> 12 &&& 0x3F) ::
      encodeChar (val >>> 6 &&& 0x3F) :: encodeChar (val &&& 0x3F) :: base64Encode rest

/-- `base64.URLEncoding.EncodeToString`. -/
def encodeToString (src : List Byte) : GoString := base64Encode src

/-- The three bytes `byte(val>>16), byte(val>>8), byte(val)` of a quantum of four
six-bit values. -/
def quantumBytes (s0 s1 s2 s3 : Nat) : List Byte :=
  let val := s0 <<< 18 ||| s1 <<< 12 ||| s2 <<< 6 ||| s3
  [Fin.ofNat (val >>> 16), Fin.ofNat (val >>> 8), Fin.ofNat val]

/-- `Encoding.decode` on an input from which `'\r'` and `'\n'` are already
removed: quanta of four characters; padding only in the last quantum, in its
third and fourth or in its fourth place, with nothing after it; an input
that ends inside a quantum is corrupt. The decoder is not strict: bits of the
last quantum that belong to no byte are not checked. -/
def decodeQuanta : List Byte → Result (List Byte)
  | [] => .ok []
  | [_] => .error .corruptInput
  | [_, _] => .error .corruptInput
  | [_, _, _] => .error .corruptInput
  | a :: b :: c :: d :: rest =>
    match decodeMap a, decodeMap b with
    | some s0, some s1 =>
      match decodeMap c with
      | some s2 =>
        match decodeMap d with
        | some s3 =>
          match decodeQuanta rest with
          | .ok tail => .ok (quantumBytes s0 s1 s2 s3 ++ tail)
          | r => r
        | none =>
          if d = padChar ∧ rest = [] then .ok ((quantumBytes s0 s1 s2 0).take 2)
          else .error .corruptInput
      | none =>
        if c = padChar ∧ d = padChar ∧ rest = [] then .ok ((quantumBytes s0 s1 0 0).take 1)
        else .error .corruptInput
    | _, _ => .error .corruptInput

/-- `base64.URLEncoding.DecodeString`: carriage returns and line feeds are
ignored wherever they stand, the rest is decoded by quanta. -/
def decodeString (s : GoString) : Result (List Byte) :=
  decodeQuanta (s.filter (fun c => c ≠ 10 ∧ c ≠ 13))

/-! ## `crypto/sha256` -/

/-- The round constants `_K` of SHA-256. -/
def sha256K : List Nat :=
[
  0x428a2f98, 0x71374491, 0xb5c0fbcf, 0xe9b5dba5, 0x3956c25b, 0x59f111f1, 0x923f82a4, 0xab1c5ed5,
  0xd807aa98, 0x12835b01, 0x243185be, 0x550c7dc3, 0x72be5d74, 0x80deb1fe, 0x9bdc06a7, 0xc19bf174,
  0xe49b69c1, 0xefbe4786, 0x0fc19dc6, 0x240ca1cc, 0x2de92c6f, 0x4a7484aa, 0x5cb0a9dc, 0x76f988da,
  0x983e5152, 0xa831c66d, 0xb00327c8, 0xbf597fc7, 0xc6e00bf3, 0xd5a79147, 0x06ca6351, 0x14292967,
  0x27b70a85, 0x2e1b2138, 0x4d2c6dfc, 0x53380d13, 0x650a7354, 0x766a0abb, 0x81c2c92e, 0x92722c85,
  0xa2bfe8a1, 0xa81a664b, 0xc24b8b70, 0xc76c51a3, 0xd192e819, 0xd6990624, 0xf40e3585, 0x106aa070,
  0x19a4c116, 0x1e376c08, 0x2748774c, 0x34b0bcb5, 0x391c0cb3, 0x4ed8aa4a, 0x5b9cca4f, 0x682e6ff3,
  0x748f82ee, 0x78a5636f, 0x84c87814, 0x8cc70208, 0x90befffa, 0xa4506ceb, 0xbef9a3f7, 0xc67178f2]

/-- The initial hash value `init0 .. init7` of SHA-256. -/
def sha256Init : List Nat :=
[
  0x6a09e667, 0xbb67ae85, 0x3c6ef372, 0xa54ff53a, 0x510e527f, 0x9b05688c, 0x1f83d9ab, 0x5be0cd19]

/-- Addition of `uint32` values. -/
def add32 (a b : Nat) : Nat := (a + b) % 2 ^ 32

/-- Rotation of a `uint32` to the right, `bits.RotateLeft32(x, -n)`. -/
def rotr32 (x n : Nat) : Nat := (x >>> n ||| x <<< (32 - n)) % 2 ^ 32

/-- The big-endian bytes of the low `8 * n` bits of `v`. -/
def bigEndian (n v : Nat) : List Nat :=
  (List.range n).map (fun i => (v >>> (8 * (n - 1 - i))) % 256)

/-- The padded message of `digest.checkSum`: the data, `0x80`, zero bytes up
to 56 modulo 64, and the length in bits as 8 big-endian bytes. -/
def sha256Pad (data : List Byte) : List Nat :=
  let len := data.length
  let padLen := if len % 64 < 56 then 56 - len % 64 else 64 + 56 - len % 64
  data.map (fun b => b.val) ++ 0x80 :: List.replicate (padLen - 1) 0 ++ bigEndian 8 (len <<< 3)

/-- The message schedule `w[0..63]` of one 64-byte chunk. -/
def sha256Schedule (chunk : List Nat) : List Nat :=
  let w0 := (List.range 16).map (fun i =>
    chunk.getD (4 * i) 0 <<< 24 ||| chunk.getD (4 * i + 1) 0 <<< 16 |||
      chunk.getD (4 * i + 2) 0 <<< 8 ||| chunk.getD (4 * i + 3) 0)
  (List.range 48).foldl (fun w j =>
    let i := j + 16
    let v1 := w.getD (i - 2) 0
    let t1 := rotr32 v1 17 ^^^ rotr32 v1 19 ^^^ v1 >>> 10
    let v2 := w.getD (i - 15) 0
    let t2 := rotr32 v2 7 ^^^ rotr32 v2 18 ^^^ v2 >>> 3
    w ++ [add32 (add32 (add32 t1 (w.getD (i - 7) 0)) t2) (w.getD (i - 16) 0)]) w0

/-- One round of the compression function on the working variables
`[a, b, c, d, e, f, g, h]`. -/
def sha256Round (w : List Nat) (s : List Nat) (i : Nat) : List Nat :=
  match s with
  | [a, b, c, d, e, f, g, h] =>
    let t1 := add32 (add32 (add32 (add32 h (rotr32 e 6 ^^^ rotr32 e 11 ^^^ rotr32 e 25))
      ((e &&& f) ^^^ ((e ^^^ 0xffffffff) &&& g))) (sha256K.getD i 0)) (w.getD i 0)
    let t2 := add32 (rotr32 a 2 ^^^ rotr32 a 13 ^^^ rotr32 a 22)
      ((a &&& b) ^^^ (a &&& c) ^^^ (b &&& c))
    [add32 t1 t2, a, b, c, add32 d t1, e, f, g]
  | _ => s

/-- The function `block` for one chunk: 64 rounds, then the working variables are
added to the hash value. -/
def sha256Block (h : List Nat) (chunk : List Nat) : List Nat :=
  let w := sha256Schedule chunk
  let s := (List.range 64).foldl (sha256Round w) h
  List.zipWith add32 h s

/-- `sha256.Sum256`: the 32 bytes of the digest (a `[32]byte` in Go). -/
def Sum256 (data : List Byte) : List Byte :=
  let p := sha256Pad data
  let h := (List.range (p.length / 64)).foldl
    (fun h k => sha256Block h ((p.drop (64 * k)).take 64)) sha256Init
  (List.range 32).map (fun i => Fin.ofNat (h.getD (i / 4) 0 >>> (8 * (3 - i % 4))))

/-! ## `crypto/aes` -/

/-- The AES block size in bytes, `aes.BlockSize`. -/
def blockSize : Nat := 16

/-- The forward S-box `sbox0`. -/
def sbox0 : List Nat :=
[
  0x63, 0x7c, 0x77, 0x7b, 0xf2, 0x6b, 0x6f, 0xc5, 0x30, 0x01, 0x67, 0x2b, 0xfe, 0xd7, 0xab, 0x76,
  0xca, 0x82, 0xc9, 0x7d, 0xfa, 0x59, 0x47, 0xf0, 0xad, 0xd4, 0xa2, 0xaf, 0x9c, 0xa4, 0x72, 0xc0,
  0xb7, 0xfd, 0x93, 0x26, 0x36, 0x3f, 0xf7, 0xcc, 0x34, 0xa5, 0xe5, 0xf1, 0x71, 0xd8, 0x31, 0x15,
  0x04, 0xc7, 0x23, 0xc3, 0x18, 0x96, 0x05, 0x9a, 0x07, 0x12, 0x80, 0xe2, 0xeb, 0x27, 0xb2, 0x75,
  0x09, 0x83, 0x2c, 0x1a, 0x1b, 0x6e, 0x5a, 0xa0, 0x52, 0x3b, 0xd6, 0xb3, 0x29, 0xe3, 0x2f, 0x84,
  0x53, 0xd1, 0x00, 0xed, 0x20, 0xfc, 0xb1, 0x5b, 0x6a, 0xcb, 0xbe, 0x39, 0x4a, 0x4c, 0x58, 0xcf,
  0xd0, 0xef, 0xaa, 0xfb, 0x43, 0x4d, 0x33, 0x85, 0x45, 0xf9, 0x02, 0x7f, 0x50, 0x3c, 0x9f, 0xa8,
  0x51, 0xa3, 0x40, 0x8f, 0x92, 0x9d, 0x38, 0xf5, 0xbc, 0xb6, 0xda, 0x21, 0x10, 0xff, 0xf3, 0xd2,
  0xcd, 0x0c, 0x13, 0xec, 0x5f, 0x97, 0x44, 0x17, 0xc4, 0xa7, 0x7e, 0x3d, 0x64, 0x5d, 0x19, 0x73,
  0x60, 0x81, 0x4f, 0xdc, 0x22, 0x2a, 0x90, 0x88, 0x46, 0xee, 0xb8, 0x14, 0xde, 0x5e, 0x0b, 0xdb,
  0xe0, 0x32, 0x3a, 0x0a, 0x49, 0x06, 0x24, 0x5c, 0xc2, 0xd3, 0xac, 0x62, 0x91, 0x95, 0xe4, 0x79,
  0xe7, 0xc8, 0x37, 0x6d, 0x8d, 0xd5, 0x4e, 0xa9, 0x6c, 0x56, 0xf4, 0xea, 0x65, 0x7a, 0xae, 0x08,
  0xba, 0x78, 0x25, 0x2e, 0x1c, 0xa6, 0xb4, 0xc6, 0xe8, 0xdd, 0x74, 0x1f, 0x4b, 0xbd, 0x8b, 0x8a,
  0x70, 0x3e, 0xb5, 0x66, 0x48, 0x03, 0xf6, 0x0e, 0x61, 0x35, 0x57, 0xb9, 0x86, 0xc1, 0x1d, 0x9e,
  0xe1, 0xf8, 0x98, 0x11, 0x69, 0xd9, 0x8e, 0x94, 0x9b, 0x1e, 0x87, 0xe9, 0xce, 0x55, 0x28, 0xdf,
  0x8c, 0xa1, 0x89, 0x0d, 0xbf, 0xe6, 0x42, 0x68, 0x41, 0x99, 0x2d, 0x0f, 0xb0, 0x54, 0xbb, 0x16]

/-- The powers of `x` in the AES field, `powx`. -/
def powx : List Nat :=
  [0x01, 0x02, 0x04, 0x08, 0x10, 0x20, 0x40, 0x80, 0x1b, 0x36, 0x6c, 0xd8, 0xab, 0x4d, 0x9a, 0x2f]

/-- The S-box applied to each byte of a word, `subw`. -/
def subw (w : Nat) : Nat :=
  sbox0.getD (w >>> 24 % 256) 0 <<< 24 ||| sbox0.getD (w >>> 16 &&& 0xff) 0 <<< 16 |||
    sbox0.getD (w >>> 8 &&& 0xff) 0 <<< 8 ||| sbox0.getD (w &&& 0xff) 0

/-- A word rotated left by one byte, `rotw`. -/
def rotw (w : Nat) : Nat := (w <<< 8 ||| w >>> 24) % 2 ^ 32

/-- The encryption key schedule of `expandKeyGo`: `len(key)/4` words of the key
followed by the derived words, `len(key) + 28` words in all. -/
def expandKey (key : List Byte) : List Nat :=
  let nk := key.length / 4
  let enc0 := (List.range nk).map (fun i =>
    (key.getD (4 * i) 0).val <<< 24 ||| (key.getD (4 * i + 1) 0).val <<< 16 |||
      (key.getD (4 * i + 2) 0).val <<< 8 ||| (key.getD (4 * i + 3) 0).val)
  (List.range (key.length + 28 - nk)).foldl (fun enc j =>
    let i := j + nk
    let t := enc.getD (i - 1) 0
    let t := if i % nk = 0 then subw (rotw t) ^^^ (powx.getD (i / nk - 1) 0 <<< 24)
      else if nk > 6 ∧ i % nk = 4 then subw t else t
    enc ++ [enc.getD (i - nk) 0 ^^^ t]) enc0

/-- Multiplication by `x` in the AES field. -/
def xtime (b : Nat) : Nat :=
  if b &&& 0x80 = 0 then b <<< 1 else (b <<< 1 ^^^ 0x1b) &&& 0xff

/-- AddRoundKey: the 16 state bytes xored with the four words of round `r`. -/
def addRoundKey (xk : List Nat) (r : Nat) (st : List Nat) : List Nat :=
  (List.range 16).map (fun i =>
    st.getD i 0 ^^^ (xk.getD (4 * r + i / 4) 0 >>> (8 * (3 - i % 4))) % 256)

/-- SubBytes followed by ShiftRows on the column-major state. -/
def subShift (st : List Nat) : List Nat :=
  (List.range 16).map (fun i => sbox0.getD (st.getD (i % 4 + 4 * ((i / 4 + i % 4) % 4)) 0) 0)

/-- MixColumns. -/
def mixColumns (st : List Nat) : List Nat :=
  (List.range 16).map (fun i =>
    let a := fun j => st.getD (4 * (i / 4) + (i % 4 + j) % 4) 0
    xtime (a 0) ^^^ (xtime (a 1) ^^^ a 1) ^^^ a 2 ^^^ a 3)

/-- The AES encryption of one block, `cipher.Block.Encrypt` of the block that
`aes.NewCipher(key)` returns: `len(key)/4 + 6` rounds on the key schedule. -/
def aesEncryptBlock (key : List Byte) (src : List Byte) : List Byte :=
  let xk := expandKey key
  let nr := key.length / 4 + 6
  let s0 := addRoundKey xk 0 ((List.range 16).map (fun i => (src.getD i 0).val))
  let s := (List.range (nr - 1)).foldl
    (fun s r => addRoundKey xk (r + 1) (mixColumns (subShift s))) s0
  (addRoundKey xk nr (subShift s)).map (fun v => Fin.ofNat v)

/-- A `cipher.Block`: its `Encrypt` method, from a block to a block. -/
abbrev Block := List Byte → List Byte

/-- `aes.NewCipher`: a key of 16, 24 or 32 bytes gives a block cipher, any other
length the `KeySizeError`. -/
def aesNewCipher (key : List Byte) : Result Block :=
  if key.length = 16 ∨ key.length = 24 ∨ key.length = 32 then .ok (aesEncryptBlock key)
  else .error (.keySize key.length)

/-! ## `crypto/cipher`, CFB mode -/

/-- The stream state of `cipher.cfb`. -/
structure CFB where
  b : Block
  next : List Byte
  out : List Byte
  outUsed : Nat
  decrypt : Bool

/-- `newCFB`: the IV must have the block size; the key stream buffer starts
used up. -/
def newCFB (block : Block) (iv : List Byte) (decrypt : Bool) : Result CFB :=
  if iv.length ≠ blockSize then .panic "cipher.newCFB: IV length must equal block size"
  else .ok { b := block, next := iv, out := List.replicate blockSize 0,
             outUsed := blockSize, decrypt := decrypt }

/-- `XORKeyStream`, one source byte at a time (the library moves runs of bytes
up to the end of the key stream buffer, with the same result): when the key
stream buffer is used up the register `next` is encrypted into it; the source
byte is xored with the next key stream byte; the cipher text byte (the source
byte when decrypting, the result when encrypting) is stored in `next`. Returns
the destination bytes and the stream state afterwards. -/
def CFB.xorKeyStream (x : CFB) : List Byte → List Byte × CFB
  | [] => ([], x)
  | s :: src =>
    let x1 : CFB := if x.outUsed = x.out.length then { x with out := x.b x.next, outUsed := 0 } else x
    let d : Byte := s ^^^ x1.out.getD x1.outUsed 0
    let x2 : CFB := { x1 with next := x1.next.set x1.outUsed (if x1.decrypt then s else d),
                              outUsed := x1.outUsed + 1 }
    let r := x2.xorKeyStream src
    (d :: r.1, r.2)

/-! ## `configure_user_command.go`: hashing and encryption -/

/-- The Go function `toHash`: the SHA-256 digest of the string, as a slice. -/
def toHash (plain : GoString) : List Byte := Sum256 plain

/-- The Go function `encryptAES`. The parameter `rand` is the outcome of
`io.ReadFull(rand.Reader, iv)` on the 16-byte slice `iv = out[:aes.BlockSize]`:
the bytes read into it, or the error of the random source. The result is `out`,
the IV followed by the CFB encryption of `data`. -/
def encryptAES (rand : Except Error (List Byte)) (key data : List Byte) : Result (List Byte) :=
  match aesNewCipher key with
  | .error e => .error e
  | .panic w => .panic w
  | .ok block =>
    match rand with
    | .error e => .error e
    | .ok iv =>
      match newCFB block iv false with
      | .error e => .error e
      | .panic w => .panic w
      | .ok stream => .ok (iv ++ (stream.xorKeyStream data).1)

/-- The Go function `decryptAES`. The slice expressions `h[:aes.BlockSize]` and
`h[aes.BlockSize:]` panic when `h` has fewer than 16 bytes; they are evaluated
before `aes.NewCipher`. -/
def decryptAES (key h : List Byte) : Result (List Byte) :=
  if h.length < blockSize then .panic "slice bounds out of range"
  else
    let iv := h.take blockSize
    let h := h.drop blockSize
    match aesNewCipher key with
    | .error e => .error e
    | .panic w => .panic w
    | .ok block =>
      match newCFB block iv true with
      | .error e => .error e
      | .panic w => .panic w
      | .ok str => .ok (str.xorKeyStream h).1

/-- The Go function `encryptString`. -/
def encryptString (rand : Except Error (List Byte)) (plain keyBase : GoString) : Result GoString :=
  let key := toHash keyBase
  match encryptAES rand key plain with
  | .error e => .error e
  | .panic w => .panic w
  | .ok encrypted => .ok (encodeToString encrypted)

/-- The Go function `decryptString`. -/
def decryptString (encryptedRaw keyBase : GoString) : Result GoString :=
  match decodeString encryptedRaw with
  | .error e => .error e
  | .panic w => .panic w
  | .ok encrypted =>
    if encrypted.length < blockSize then .error (.errorf "short cipher, min len: 16")
    else
      match decryptAES (toHash keyBase) encrypted with
      | .error e => .error e
      | .panic w => .panic w
      | .ok decrypted => .ok decrypted

/-- The type `lenses.Configuration`, declared outside the embedded files: the
fields that the commands read or write, and `Other` for every further field. -/
structure Configuration (ρ : Type) where
  Host : GoString
  User : GoString
  Password : GoString
  Token : GoString
  Debug : Bool
  Other : ρ

/-- The Go function `encryptPassword`: the configuration behind the pointer
after the call, and the returned error (`.ok ()` for `nil`). -/
def encryptPassword {ρ : Type} (rand : Except Error (List Byte)) (cfg : Configuration ρ) :
    Configuration ρ × Result Unit :=
  if cfg.Password = [] then (cfg, .error (.errorf "empty password"))
  else
    match encryptString rand cfg.Password cfg.Host with
    | .error e => (cfg, .error e)
    | .panic w => (cfg, .panic w)
    | .ok p => ({ cfg with Password := p }, .ok ())

/-- The Go function `decryptPassword`: the configuration behind the pointer
after the call. An error of `decryptString` is dropped and the password becomes
the empty string that came with it. -/
def decryptPassword {ρ : Type} (cfg : Configuration ρ) : Result (Configuration ρ) :=
  match decryptString cfg.Password cfg.Host with
  | .ok p => .ok { cfg with Password := p }
  | .error _ => .ok { cfg with Password := [] }
  | .panic w => .panic w


/-! ## `configure_user_command.go`: the configuration contexts -/

/-- A Go `map[string]T` as an association list with distinct keys. -/
abbrev StringMap (α : Type) := List (String × α)

/-- The lookup `v, ok := m[k]`. -/
def StringMap.get? {α : Type} : StringMap α → String → Option α
  | [], _ => none
  | e :: m, k => if e.1 = k then some e.2 else StringMap.get? m k

/-- The assignment `m[k] = v`: replaces the entry of `k`, or adds one. -/
def StringMap.set {α : Type} : StringMap α → String → α → StringMap α
  | [], k, v => [(k, v)]
  | e :: m, k, v => if e.1 = k then (k, v) :: m else e :: StringMap.set m k v

/-- The keys of the map. -/
def StringMap.keys {α : Type} (m : StringMap α) : List String := m.map (fun e => e.1)

/-- The value `configManager.config`: the name of the current context and the
contexts by name. -/
structure Config (ρ : Type) where
  CurrentContext : String
  Contexts : StringMap (Configuration ρ)

/-- What a context command does to the outside, in order. -/
inductive ContextEvent (ρ : Type) where
  /-- A call of `setupClient()` while the named context is the current one. -/
  | setupClient (name : String)
  /-- A `fmt.Fprintf(cmd.OutOrStdout(), ...)` with this text. -/
  | printf (text : String)
  /-- A `printJSON(cmd, cfg)`. -/
  | printJSON (cfg : Configuration ρ)
  /-- A `survey.AskOne` with this message. -/
  | askOne (message : String)
  /-- The execution of a sub-command, `delete` or `set`, with these arguments. -/
  | execute (command : String) (args : List String)
  /-- A call `echo(cmd, format, args...)`. -/
  | echo (format : String) (args : List String)

/-- The collaborators of the context commands that are declared outside the
embedded file. -/
structure ContextEnv (ρ : Type) where
  /-- The method `FormatHost` of a configuration. -/
  formatHost : Configuration ρ → Configuration ρ
  /-- The error of `setupClient()` under this configuration. -/
  setupClient : Config ρ → Option Error
  /-- The global `silent`. -/
  silent : Bool
  /-- The method `configManager.currentContextExists`. -/
  currentContextExists : Config ρ → Bool
  /-- The method `configManager.removeContext`: whether the context was removed,
  and the configuration afterwards. -/
  removeContext : Config ρ → String → Bool × Config ρ
  /-- The answer to the `survey.Select` about the named context, or its error. -/
  selectAction : String → Except Error String
  /-- The execution of a sub-command, `delete` or `set`, with these arguments:
  the configuration afterwards and the returned error. -/
  execute : String → List String → Config ρ → Config ρ × Option Error
  /-- The error returned by `echo`. -/
  echo : String → List String → Option Error

/-- The Go function `isValidConfigurationContext`: the named context is made
current, `setupClient` is tried, the current context is set back. -/
def isValidConfigurationContext {ρ : Type} (env : ContextEnv ρ) (config : Config ρ)
    (name : String) : List (ContextEvent ρ) × Bool :=
  ([.setupClient name], (env.setupClient { config with CurrentContext := name }).isNone)

/-- The Go function `printConfigurationContext`: the events, the configuration
afterwards (the host of the stored context is formatted) and the returned
validity. An unknown name prints nothing and gives `false`. -/
def printConfigurationContext {ρ : Type} (env : ContextEnv ρ) (config : Config ρ)
    (name : String) : List (ContextEvent ρ) × Config ρ × Bool :=
  let currentContextName := config.CurrentContext
  match config.Contexts.get? name with
  | none => ([], config, false)
  | some c =>
    let c := env.formatHost c
    let config := { config with Contexts := config.Contexts.set name c }
    let cfg := c
    let (ev, isValid) := isValidConfigurationContext env config name
    let info := if isValid then "valid" else "invalid"
    let cfg := if cfg.Password ≠ [] then { cfg with Password := bytesOfString "****" } else cfg
    let cfg := if cfg.Token ≠ [] then { cfg with Token := bytesOfString "****" } else cfg
    let info := if name = currentContextName then info ++ ", current" else info
    (ev ++ [.printf (name ++ " [" ++ info ++ "]\n"), .printJSON cfg], config, isValid)

/-- The Go function `showOptionsForConfigurationContext`: the question, then
the `delete` or `set` sub-command on the answer `delete` or `edit`; the events,
the configuration after the sub-command, and the returned error. -/
def showOptionsForConfigurationContext {ρ : Type} (env : ContextEnv ρ) (config : Config ρ)
    (name : String) : List (ContextEvent ρ) × Config ρ × Option Error :=
  let ask : ContextEvent ρ := .askOne
    ("Would you like to skip, edit or delete the '" ++ name ++ "' invalid configuration context?")
  match env.selectAction name with
  | .error e => ([ask], config, some e)
  | .ok action =>
    if action = "skip" then ([ask], config, none)
    else if action = "delete" then
      let r := env.execute "delete" [name] config
      ([ask, .execute "delete" [name]], r.1, r.2)
    else if action = "edit" then
      let r := env.execute "set" [name] config
      ([ask, .execute "set" [name]], r.1, r.2)
    else ([ask], config, none)

/-- The `RunE` of the command `context` (`newConfigurationContextCommand`): the
events, the configuration afterwards and the returned error. The error of
`showOptionsForConfigurationContext` is dropped. -/
def newConfigurationContextCommand_RunE {ρ : Type} (env : ContextEnv ρ) (config : Config ρ) :
    List (ContextEvent ρ) × Config ρ × Option Error :=
  if !env.currentContextExists config then
    ([], config, some (.errorf
      "current context does not exist, please use the `configure` command first"))
  else
    let name := config.CurrentContext
    let (ev, config, isValid) := printConfigurationContext env config name
    if !isValid then
      if !env.silent then
        let r := showOptionsForConfigurationContext env config name
        (ev ++ r.1, r.2.1, none)
      else (ev, config, none)
    else (ev, config, none)

/-- The `RunE` of the command `context delete`
(`newDeleteConfigurationContextCommand`). -/
def newDeleteConfigurationContextCommand_RunE {ρ : Type} (env : ContextEnv ρ)
    (config : Config ρ) (args : List String) :
    List (ContextEvent ρ) × Config ρ × Option Error :=
  match args with
  | [] => ([], config, some (.errorf "one argument is required for the context name"))
  | name :: _ =>
    let removeContextWillChangeContext := decide (config.CurrentContext = name)
    let (deleted, config) := env.removeContext config name
    if !deleted then
      let format := "unable to delete context '%s', at least one more valid context should be present"
      ([.echo format [name]], config, env.echo format [name])
    else
      let succMsg := "'" ++ name ++ "' context deleted"
      let succMsg :=
        if removeContextWillChangeContext then
          let newCurrentContext := config.CurrentContext
          succMsg ++ ", current context set to '" ++ newCurrentContext ++ "'"
        else succMsg
      ([.echo succMsg []], config, env.echo succMsg [])

/-! ## `configure_user_command.go`: the command `configure` -/

/-- What the command `configure` does to the outside, in order. -/
inductive ConfigureEvent where
  /-- The banner is printed. -/
  | banner
  /-- The four questions `survey.Ask(qs, currentConfig)`. -/
  | ask
  /-- The question `Save configuration file to`. -/
  | askLocation
  /-- The call `configManager.save()`. -/
  | save
  deriving DecidableEq, Repr

/-- The inputs of one invocation of `configure`. -/
structure ConfigureEnv where
  /-- The value of `configManager.isValid()`. -/
  isValid : Bool
  /-- The flag `--reset`. -/
  reset : Bool
  /-- The flag `--no-banner`. -/
  noBanner : Bool
  /-- The flag `--default-location`. -/
  defLocation : Bool
  /-- The value `cmd.Root().Flags().NFlag()`: the number of flags that the flag
  set of the root command itself has set. -/
  nFlag : Nat
  /-- The names of the root flags that have been set, through whichever flag
  set: `cmd.Root().Flag(name).Changed` is membership. -/
  rootFlags : Finset String
  /-- A flag that the flag set of the root command has set is a changed root
  flag. -/
  nFlag_le : nFlag ≤ rootFlags.card
  /-- The value `configManager.config.CurrentContext`. -/
  currentContext : String
  /-- The value `len(configManager.config.Contexts)`. -/
  nContexts : Nat
  /-- The value `configManager.filepath`. -/
  filepath : String
  /-- The error of `survey.Ask`. -/
  askResult : Option Error
  /-- The error of the `survey.AskOne` for the location. -/
  askLocationResult : Option Error
  /-- The error of `configManager.save()`. -/
  saveResult : Option Error

/-- The `RunE` of the command `configure` (`newConfigureCommand`). -/
def newConfigureCommand_RunE (env : ConfigureEnv) : List ConfigureEvent × Option Error :=
  if !env.isValid || env.reset then
    let banner : List ConfigureEvent := if !env.noBanner then [.banner] else []
    match env.askResult with
    | some e => (banner ++ [.ask], some e)
    | none =>
      let defLocation :=
        if env.currentContext ≠ "" ∧ env.nContexts > 0 then true else env.defLocation
      if env.filepath = "" ∧ !defLocation then
        match env.askLocationResult with
        | some e => (banner ++ [.ask, .askLocation], some e)
        | none => (banner ++ [.ask, .askLocation, .save], env.saveResult)
      else (banner ++ [.ask, .save], env.saveResult)
  else
    let nFlags := env.nFlag
    if nFlags = 0 ∨ (nFlags = 1 ∧ "context" ∈ env.rootFlags) ∨
        (nFlags ≤ 2 ∧ "config" ∈ env.rootFlags) then
      ([], some (.errorf "configuration already exists, try 'configure --reset' instead"))
    else ([.save], env.saveResult)

/-! ## `configure_user_command.go`: the session of the command `login` -/

/-- `strings.TrimRight(s, cutset)`: `s` without its trailing characters that
are in `cutset`. -/
def stringsTrimRight (s cutset : String) : String :=
  ⟨(s.data.reverse.dropWhile (fun c => cutset.data.contains c)).reverse⟩

/-- The pieces of a character list between the occurrences of `sep`. -/
def splitChars (sep : Char) : List Char → List (List Char)
  | [] => [[]]
  | c :: cs =>
    if c = sep then [] :: splitChars sep cs
    else
      match splitChars sep cs with
      | [] => [[c]]
      | w :: ws => (c :: w) :: ws

/-- `strings.Split(s, sep)` for a separator of one character. -/
def stringsSplit (s : String) (sep : Char) : List String :=
  (splitChars sep s.data).map String.mk

/-- A `cobra.Command` as the session uses it: its name, `ParseFlags`, and the
optional `Run` and `RunE`, all acting on the state `σ` of the program. -/
structure Command (σ : Type) where
  name : String
  parseFlags : List String → σ → σ × Option Error
  run : Option (List String → σ → σ)
  runE : Option (List String → σ → σ × Option Error)

/-- What the session does to the outside, in order. -/
inductive LoginEvent where
  /-- The welcome text. -/
  | welcome (text : String)
  /-- The prompt `> `. -/
  | prompt
  /-- A `fmt.Fprintln(out, text)`. -/
  | println (text : String)
  /-- A `fmt.Fprintln(out, err)`. -/
  | printErr (err : Error)
  /-- The lookup `rootCmd.Find(cms)`. -/
  | find (cms : List String)
  /-- The call `c.ParseFlags(flags)` of the named command. -/
  | parseFlags (name : String) (flags : List String)
  /-- The call `c.Run(&c, cArgs)` of the named command. -/
  | run (name : String) (args : List String)
  /-- The call `c.RunE(&c, cArgs)` of the named command. -/
  | runE (name : String) (args : List String)
  deriving DecidableEq, Repr

/-- How the session ends: `os.Exit(status)`, or `RunE` returns an error. -/
inductive SessionEnd where
  | exit (status : Nat)
  | returned (err : Option Error)
  deriving DecidableEq, Repr

/-- The constant `logoutCmdName`. -/
def logoutCmdName : String := "logout"

/-- The body of the session loop after a line was read without error: the
events, the state afterwards, and the end of the session if the line ends it
(`none` where the loop goes on to the next line). -/
def loginLine {σ : Type} (find : List String → Except Error (Command σ × List String))
    (line : String) (s : σ) : List LoginEvent × σ × Option SessionEnd :=
  let line := stringsTrimRight line "\r\n"
  if line = "exit" then ([], s, some (.exit 0))
  else
    let cms := stringsSplit line ' '
    match find cms with
    | .error err => ([.find cms, .printErr err], s, none)
    | .ok (c, flags) =>
      let commandName := c.name
      if commandName = "login" ∨ commandName = "configure" then
        ([.find cms, .println "unable to run inside a started session"], s, none)
      else
        match c.parseFlags flags s with
        | (s, some err) => ([.find cms, .parseFlags commandName flags, .printErr err], s, none)
        | (s, none) =>
          let stopFlags := flags.length + 1
          let cArgs := if cms.length > stopFlags then (cms.take stopFlags).drop 1 else []
          let before : List LoginEvent := [.find cms, .parseFlags commandName flags]
          match c.run, c.runE with
          | none, none => (before ++ [.println "command is unable to run"], s, none)
          | some run, _ =>
            let s := run cArgs s
            if commandName = logoutCmdName then
              (before ++ [.run commandName cArgs], s, some (.exit 0))
            else (before ++ [.run commandName cArgs, .println ""], s, none)
          | none, some runE =>
            match runE cArgs s with
            | (s, some err) =>
              if commandName = logoutCmdName then
                (before ++ [.runE commandName cArgs, .printErr err], s, some (.exit 1))
              else (before ++ [.runE commandName cArgs, .printErr err, .println ""], s, none)
            | (s, none) =>
              if commandName = logoutCmdName then
                (before ++ [.runE commandName cArgs], s, some (.exit 0))
              else (before ++ [.runE commandName cArgs, .println ""], s, none)

/-- The session loop. `reads` are the lines that `ReadString('\n')` returns
without error, in order, and `readErr` is the error of the read after them
(`io.EOF` at the end of the input); what that last read returns as a line is
dropped by the loop. -/
def loginLoop {σ : Type} (find : List String → Except Error (Command σ × List String))
    (readErr : Error) : List String → σ → List LoginEvent × σ × SessionEnd
  | [], s => ([.prompt], s, .returned (some readErr))
  | line :: reads, s =>
    match loginLine find line s with
    | (ev, s, some e) => (.prompt :: ev, s, e)
    | (ev, s, none) =>
      let r := loginLoop find readErr reads s
      (.prompt :: ev ++ r.1, r.2.1, r.2.2)

/-- The `RunE` of the command `login` (`newLoginCommand`): `setupClient`, the
welcome text for the signed-in user, the loop. -/
def newLoginCommand_RunE {σ : Type} (setupClient : Option Error) (userName : String)
    (roles : List String) (find : List String → Except Error (Command σ × List String))
    (readErr : Error) (reads : List String) (s : σ) : List LoginEvent × σ × SessionEnd :=
  match setupClient with
  | some err => ([], s, .returned (some err))
  | none =>
    let r := loginLoop find readErr reads s
    (.welcome ("Welcome " ++ userName ++ "[" ++ ", ".intercalate roles ++
      "],\ntype 'help' to learn more about the available commands or 'exit' to terminate.\n")
      :: r.1, r.2.1, r.2.2)

/-! ## `connector_command.go`: the command `connectors` -/

/-- The type `lenses.ConnectCluster`, of which the command reads the name. -/
structure ConnectCluster where
  Name : String
  deriving DecidableEq, Repr

/-- What the command `connectors` does to the outside, in order; `κ` is the
type `lenses.Connector`. -/
inductive ConnectorsEvent (κ : Type) where
  /-- The call `client.GetConnectClusters()`. -/
  | getConnectClusters
  /-- The call `client.GetConnectors(clusterName)`. -/
  | getConnectors (clusterName : String)
  /-- The call `client.GetConnector(clusterName, name)`. -/
  | getConnector (clusterName name : String)
  /-- The assignment to `errResourceNotFoundMessage`. -/
  | setNotFoundMessage (text : String)
  /-- A `fmt.Fprintln(cmd.OutOrStdout(), name)`. -/
  | println (text : String)
  /-- A `fmt.Fprintf(cmd.OutOrStderr(), "get connector error: %v\n", err)`. -/
  | printGetError (err : Error)
  /-- The call `printJSON(cmd, outlineStringResults("name", names))`. -/
  | printNames (names : List String)
  /-- The call `printJSON(cmd, connectors)`. -/
  | printConnectors (connectors : StringMap (List κ))

/-- Whether the event writes to the standard output or the standard error. -/
def ConnectorsEvent.isPrint {κ : Type} : ConnectorsEvent κ → Bool
  | .println _ => true
  | .printGetError _ => true
  | .printNames _ => true
  | .printConnectors _ => true
  | _ => false

/-- The remote API and the printer, declared outside the embedded file. -/
structure ConnectorsEnv (κ : Type) where
  /-- The method `client.GetConnectClusters`. -/
  getConnectClusters : Except Error (List ConnectCluster)
  /-- The method `client.GetConnectors`. -/
  getConnectors : String → Except Error (List String)
  /-- The method `client.GetConnector`. -/
  getConnector : String → String → Except Error κ
  /-- The error returned by `printJSON` for the list of names. -/
  printNames : List String → Option Error
  /-- The error returned by `printJSON` for the connectors. -/
  printConnectors : StringMap (List κ) → Option Error

/-- The value `m[k]` of a map of slices: the empty slice for a missing key. -/
def StringMap.getD {α : Type} (m : StringMap (List α)) (k : String) : List α :=
  (m.get? k).getD []

/-- The loop over the clusters in the branch for all clusters: each cluster is
queried, its connector names are appended to the entry of its name; the first
error ends the loop. -/
def collectConnectorNames {κ : Type} (env : ConnectorsEnv κ) :
    List ConnectCluster → StringMap (List String) →
      List (ConnectorsEvent κ) × Except Error (StringMap (List String))
  | [], connectorNames => ([], .ok connectorNames)
  | cluster :: clusters, connectorNames =>
    match env.getConnectors cluster.Name with
    | .error err => ([.getConnectors cluster.Name], .error err)
    | .ok clusterConnectorsNames =>
      let r := collectConnectorNames env clusters
        (connectorNames.set cluster.Name
          (connectorNames.getD cluster.Name ++ clusterConnectorsNames))
      (.getConnectors cluster.Name :: r.1, r.2)

/-- The first part of the `RunE` of `connectors`: the map `connectorNames`
from cluster name to connector names, or the error that ends the command. -/
def connectorNamesOf {κ : Type} (env : ConnectorsEnv κ) (clusterName : String) :
    List (ConnectorsEvent κ) × Except Error (StringMap (List String)) :=
  if clusterName = "*" ∨ clusterName = "" then
    match env.getConnectClusters with
    | .error err => ([.getConnectClusters], .error err)
    | .ok clusters =>
      let r := collectConnectorNames env clusters []
      (.getConnectClusters :: r.1, r.2)
  else
    match env.getConnectors clusterName with
    | .error err =>
      ([.getConnectors clusterName, .setNotFoundMessage
        ("unable to retrieve connectors, cluster with name '" ++ clusterName ++
          "' does not exist")], .error err)
    | .ok names => ([.getConnectors clusterName], .ok [(clusterName, names)])

/-- The loop that fetches the connectors of one cluster by name: a failed
`GetConnector` is reported on the standard error and skipped. -/
def fetchConnectors {κ : Type} (env : ConnectorsEnv κ) (cluster : String) :
    List String → List (ConnectorsEvent κ) × List κ
  | [] => ([], [])
  | name :: names =>
    let r := fetchConnectors env cluster names
    match env.getConnector cluster name with
    | .error err => (.getConnector cluster name :: .printGetError err :: r.1, r.2)
    | .ok connector => (.getConnector cluster name :: r.1, connector :: r.2)

/-- The loop over `connectorNames` that builds the map `connectors`. Go leaves
the order of a `range` over a map open; the model takes the order of the
association list. -/
def fetchAllConnectors {κ : Type} (env : ConnectorsEnv κ) :
    StringMap (List String) → List (ConnectorsEvent κ) × StringMap (List κ)
  | [] => ([], [])
  | (cluster, names) :: m =>
    let here := fetchConnectors env cluster names
    let r := fetchAllConnectors env m
    (here.1 ++ r.1, if here.2.isEmpty then r.2 else (cluster, here.2) :: r.2)

/-- The `RunE` of the command `connectors` (`newConnectorsCommand`), with the
flags `--clusterName`, `--names` and `--no-json`. -/
def newConnectorsCommand_RunE {κ : Type} (env : ConnectorsEnv κ) (clusterName : String)
    (namesOnly noJSON : Bool) : List (ConnectorsEvent κ) × Option Error :=
  match connectorNamesOf env clusterName with
  | (ev, .error err) => (ev, some err)
  | (ev, .ok connectorNames) =>
    if namesOnly then
      let names := (connectorNames.map (fun e => e.2)).flatten.mergeSort (fun a b => decide (a ≤ b))
      if noJSON then (ev ++ names.map (fun name => .println name), none)
      else (ev ++ [.printNames names], env.printNames names)
    else
      let r := fetchAllConnectors env connectorNames
      (ev ++ r.1 ++ [.printConnectors r.2], env.printConnectors r.2)

/-- The connector names that the listing of the named cluster returns, none
when the listing fails. -/
def ConnectorsEnv.namesOf {κ : Type} (env : ConnectorsEnv κ) (clusterName : String) :
    List String :=
  match env.getConnectors clusterName with
  | .ok names => names
  | .error _ => []

/-! ## The session of `login`: the lines that do not end it -/

/-- The words `cms` of a line of the session: the line without its trailing
carriage returns and line feeds, split at every blank. -/
def sessionWords (line : String) : List String :=
  stringsSplit (stringsTrimRight line "\r\n") ' '

/-- The arguments `cArgs` that the session loop hands to a command: the words
after the first up to the place `len(flags) + 1`, when there are more words
than that, else none. -/
def sessionArgs (cms flags : List String) : List String :=
  if cms.length > flags.length + 1 then (cms.take (flags.length + 1)).drop 1 else []

/-- The state of the program after the session loop handled the given lines,
when none of them ends the session; `none` when one of them does. -/
def afterLines {σ : Type} (find : List String → Except Error (Command σ × List String)) :
    List String → σ → Option σ
  | [], s => some s
  | line :: reads, s =>
    match loginLine find line s with
    | (_, t, none) => afterLines find reads t
    | (_, _, some _) => none

/-! ## Sample environments -/

/-- A client whose cluster listing names the cluster `dev` twice; the cluster
has the one connector `sink`. -/
def duplicateClusterEnv : ConnectorsEnv Unit where
  getConnectClusters := .ok [⟨"dev"⟩, ⟨"dev"⟩]
  getConnectors := fun _ => .ok ["sink"]
  getConnector := fun _ _ => .ok ()
  printNames := fun _ => none
  printConnectors := fun _ => none

/-- A client with the clusters `dev`, with the connector `sink`, and `prod`,
with the connectors `source` and `sink`. -/
def twoClusterEnv : ConnectorsEnv Unit where
  getConnectClusters := .ok [⟨"dev"⟩, ⟨"prod"⟩]
  getConnectors := fun name => if name = "dev" then .ok ["sink"] else .ok ["source", "sink"]
  getConnector := fun _ _ => .ok ()
  printNames := fun _ => none
  printConnectors := fun _ => none

/-- An invocation of `configure` with a valid stored configuration, no
`--reset`, the given count `NFlag()` and the given changed root flags. -/
def sampleConfigureEnv (nFlag : Nat) (rootFlags : Finset String)
    (h : nFlag ≤ rootFlags.card) : ConfigureEnv :=
  ⟨true, false, false, false, nFlag, rootFlags, h, "default", 1, "lenses-cli.yml", none, none,
    none⟩

/-- An environment in which the current context is the one named
`CurrentContext` when it is a key of `Contexts`, every context is invalid, and
`removeContext` removes a known context unless it is the only one, making the
first remaining context current. -/
def sampleContextEnv : ContextEnv Unit where
  formatHost := fun c => c
  setupClient := fun _ => some (.external "client: credentials missing or invalid")
  silent := false
  currentContextExists := fun config => (config.Contexts.get? config.CurrentContext).isSome
  removeContext := fun config name =>
    match (config.Contexts.filter (fun e => e.1 ≠ name)) with
    | [] => (false, config)
    | e :: rest =>
      if (config.Contexts.get? name).isSome then
        (true, ⟨if config.CurrentContext = name then e.1 else config.CurrentContext, e :: rest⟩)
      else (false, config)
  selectAction := fun _ => .ok "skip"
  execute := fun _ _ config => (config, none)
  echo := fun _ _ => none
/-- A command tree for a session: `contexts` runs without error, `connectors`
returns an error, `logout` returns an error, `broken` has no run function,
`user` fails to parse its flags, any other word is unknown. The state counts
the commands that ran. -/
def sampleFind (cms : List String) : Except Error (Command Nat × List String) :=
  match cms with
  | "contexts" :: _ =>
    .ok (⟨"contexts", fun _ n => (n, none), none, some (fun _ n => (n + 1, none))⟩, [])
  | "connectors" :: _ =>
    .ok (⟨"connectors", fun _ n => (n, none), none,
      some (fun _ n => (n + 1, some (.external "connection refused")))⟩, [])
  | "logout" :: _ =>
    .ok (⟨"logout", fun _ n => (n, none), none,
      some (fun _ n => (n + 1, some (.external "token expired")))⟩, [])
  | "broken" :: _ => .ok (⟨"broken", fun _ n => (n, none), none, none⟩, [])
  | "user" :: _ =>
    .ok (⟨"user", fun _ n => (n, some (.external "unknown flag: --x")), none,
      some (fun _ n => (n + 1, none))⟩, ["--x"])
  | _ => .error (.external "unknown command")

/-! ## Known answers of the embedded library routines -/

set_option maxRecDepth 100000 in
/-- SHA-256 of `abc`, the one-block example of FIPS 180. -/
theorem Sum256_abc :
    Sum256 (bytesOfString "abc") =
      [186, 120, 22, 191, 143, 1, 207, 234, 65, 65, 64, 222, 93, 174, 34, 35, 176, 3, 97, 163, 150, 23, 122, 156, 180, 16, 255, 97, 242, 0, 21, 173] := by
  decide

set_option maxRecDepth 100000 in
/-- AES-256 on the example vector of FIPS 197, appendix C.3. -/
theorem aesEncryptBlock_256 :
    aesEncryptBlock ((List.range 32).map Fin.ofNat)
        ((List.range 16).map (fun i => Fin.ofNat (17 * i))) =
      [142, 162, 183, 202, 81, 103, 69, 191, 234, 252, 73, 144, 75, 73, 96, 137] := by
  decide

set_option maxRecDepth 100000 in
/-- AES-128 on the example vector of FIPS 197, appendix C.1. -/
theorem aesEncryptBlock_128 :
    aesEncryptBlock ((List.range 16).map Fin.ofNat)
        ((List.range 16).map (fun i => Fin.ofNat (17 * i))) =
      [105, 196, 224, 216, 106, 123, 4, 48, 216, 205, 183, 128, 112, 180, 197, 90] := by
  decide

set_option maxRecDepth 100000 in
/-- The function `encryptAES` on the first two blocks of the CFB128-AES256 example of
NIST SP 800-38A: the IV followed by the cipher text. -/
theorem encryptAES_sp800_38a :
    encryptAES (.ok ((List.range 16).map Fin.ofNat))
        [96, 61, 235, 16, 21, 202, 113, 190, 43, 115, 174, 240, 133, 125, 119, 129, 31, 53, 44, 7, 59, 97, 8, 215, 45, 152, 16, 163, 9, 20, 223, 244]
        [107, 193, 190, 226, 46, 64, 159, 150, 233, 61, 126, 17, 115, 147, 23, 42, 174, 45, 138, 87, 30, 3, 172, 156, 158, 183, 111, 172, 69, 175, 142, 81] =
      .ok ((List.range 16).map Fin.ofNat ++
        [220, 126, 132, 191, 218, 121, 22, 75, 126, 205, 132, 134, 152, 93, 56, 96, 57, 255, 237, 20, 59, 40, 177, 200, 50, 17, 60, 99, 49, 229, 64, 123]) := by
  decide

set_option maxRecDepth 100000 in
/-- URL-safe base64 with padding: the bytes `0xff, 0xff` give `__8=`, and back. -/
theorem base64_ff_ff :
    encodeToString [255, 255] = bytesOfString "__8=" ∧
    decodeString (bytesOfString "__8=") = .ok [255, 255] := by
  decide

set_option maxRecDepth 100000 in
/-- The function `encryptString` on the password `hunter2` with the key base
`http://localhost:3030` and the IV `0, 1, .., 15`. -/
theorem encryptString_hunter2 :
    encryptString (.ok ((List.range 16).map Fin.ofNat)) (bytesOfString "hunter2")
        (bytesOfString "http://localhost:3030") =
      .ok (bytesOfString "AAECAwQFBgcICQoLDA0OD_196-Nz4Q4=") := by
  decide

/-! ## Lemmas on bytes and bit operations -/

theorem byte_xor_cancel (s k : Byte) : s ^^^ k ^^^ k = s := by
  apply Fin.ext
  have hs := s.isLt
  have hk := k.isLt
  have h1 : s.val ^^^ k.val < 2 ^ 8 := Nat.xor_lt_two_pow (by simp) (by simp)
  have h2 : s.val ^^^ k.val < 256 := by simpa using h1
  show ((s.val ^^^ k.val) % 256 ^^^ k.val) % 256 = s.val
  rw [Nat.mod_eq_of_lt h2, Nat.xor_assoc, Nat.xor_self, Nat.xor_zero, Nat.mod_eq_of_lt hs]

theorem or_eq_add (i x y : Nat) (hx : x % 2 ^ i = 0) (hy : y < 2 ^ i) : x ||| y = x + y := by
  obtain ⟨k, rfl⟩ := Nat.dvd_of_mod_eq_zero hx
  exact (Nat.mul_add_lt_is_or hy k).symm

theorem and_63 (x : Nat) : x &&& 63 = x % 64 := Nat.and_pow_two_sub_one_eq_mod x 6

theorem pack2 (a b : Nat) (hb : b < 256) :
    a <<< 16 ||| b <<< 8 = a * 65536 + b * 256 := by
  simp only [Nat.shiftLeft_eq]
  exact or_eq_add 16 _ _ (by omega) (by omega)

theorem pack3 (a b c : Nat) (hb : b < 256) (hc : c < 256) :
    a <<< 16 ||| b <<< 8 ||| c = a * 65536 + b * 256 + c := by
  rw [pack2 a b hb]
  exact or_eq_add 8 _ _ (by omega) (by omega)

theorem pack4 (a b c d : Nat) (hb : b < 64) (hc : c < 64) (hd : d < 64) :
    a <<< 18 ||| b <<< 12 ||| c <<< 6 ||| d = a * 262144 + b * 4096 + c * 64 + d := by
  have h1 : a <<< 18 ||| b <<< 12 = a * 262144 + b * 4096 := by
    simp only [Nat.shiftLeft_eq]
    exact or_eq_add 18 _ _ (by omega) (by omega)
  have h2 : a * 262144 + b * 4096 ||| c <<< 6 = a * 262144 + b * 4096 + c * 64 := by
    simp only [Nat.shiftLeft_eq]
    exact or_eq_add 12 _ _ (by omega) (by omega)
  rw [h1, h2]
  exact or_eq_add 6 _ _ (by omega) (by omega)

/-! ## Lemmas on the base64 tables -/

theorem encodeChar_props : ∀ i : Fin 64,
    decodeMap (encodeChar i.val) = some i.val ∧ encodeChar i.val ≠ 10 ∧ encodeChar i.val ≠ 13 := by
  decide

theorem decodeMap_padChar : decodeMap padChar = none := by decide


theorem sextet_lt (x : Nat) : x &&& 0x3F < 64 := by
  rw [and_63]
  omega

theorem decodeMap_sextet (x : Nat) : decodeMap (encodeChar (x &&& 0x3F)) = some (x &&& 0x3F) :=
  (encodeChar_props ⟨_, sextet_lt x⟩).1

theorem encodeChar_sextet_ne (x : Nat) :
    encodeChar (x &&& 0x3F) ≠ 10 ∧ encodeChar (x &&& 0x3F) ≠ 13 :=
  (encodeChar_props ⟨_, sextet_lt x⟩).2

theorem byte_ofNat_eq (x : Nat) (b : Byte) (h : x % 256 = b.val) : (Fin.ofNat x : Byte) = b :=
  Fin.ext h

theorem quantum_three (a b c : Byte) (val : Nat)
    (hv : val = a.val <<< 16 ||| b.val <<< 8 ||| c.val) :
    quantumBytes (val >>> 18 &&& 0x3F) (val >>> 12 &&& 0x3F) (val >>> 6 &&& 0x3F)
      (val &&& 0x3F) = [a, b, c] := by
  have ha := a.isLt
  have hb := b.isLt
  have hc := c.isLt
  rw [pack3 _ _ _ hb hc] at hv
  simp only [quantumBytes]
  rw [pack4 _ _ _ _ (sextet_lt _) (sextet_lt _) (sextet_lt _)]
  simp only [List.cons.injEq, and_true]
  refine ⟨byte_ofNat_eq _ _ ?_, byte_ofNat_eq _ _ ?_, byte_ofNat_eq _ _ ?_⟩ <;>
    (simp only [and_63, Nat.shiftRight_eq_div_pow]; omega)

theorem quantum_two (a b : Byte) (val : Nat) (hv : val = a.val <<< 16 ||| b.val <<< 8) :
    (quantumBytes (val >>> 18 &&& 0x3F) (val >>> 12 &&& 0x3F) (val >>> 6 &&& 0x3F) 0).take 2
      = [a, b] := by
  have ha := a.isLt
  have hb := b.isLt
  rw [pack2 _ _ hb] at hv
  simp only [quantumBytes, List.take_succ_cons, List.take_zero]
  rw [pack4 _ _ _ _ (sextet_lt _) (sextet_lt _) (by omega)]
  simp only [List.cons.injEq, and_true]
  refine ⟨byte_ofNat_eq _ _ ?_, byte_ofNat_eq _ _ ?_⟩ <;>
    (simp only [and_63, Nat.shiftRight_eq_div_pow]; omega)

theorem quantum_one (a : Byte) (val : Nat) (hv : val = a.val <<< 16) :
    (quantumBytes (val >>> 18 &&& 0x3F) (val >>> 12 &&& 0x3F) 0 0).take 1 = [a] := by
  have ha := a.isLt
  rw [Nat.shiftLeft_eq] at hv
  simp only [quantumBytes, List.take_succ_cons, List.take_zero]
  rw [pack4 _ _ _ _ (sextet_lt _) (by omega) (by omega)]
  simp only [List.cons.injEq, and_true]
  refine byte_ofNat_eq _ _ ?_
  simp only [and_63, Nat.shiftRight_eq_div_pow]
  omega

/-- Decoding by quanta inverts `Encoding.Encode`. -/
theorem decodeQuanta_base64Encode (bs : List Byte) :
    decodeQuanta (base64Encode bs) = .ok bs := by
  induction bs using base64Encode.induct with
  | case1 => rfl
  | case2 a =>
    simp only [base64Encode, decodeQuanta, decodeMap_sextet, decodeMap_padChar, and_self,
      if_true]
    rw [quantum_one a _ rfl]
  | case3 a b =>
    simp only [base64Encode, decodeQuanta, decodeMap_sextet, decodeMap_padChar, and_self,
      if_true]
    rw [quantum_two a b _ rfl]
  | case4 a b c rest ih =>
    simp only [base64Encode, decodeQuanta, decodeMap_sextet, ih]
    rw [quantum_three a b c _ rfl]
    rfl

/-- No character of an encoding is a carriage return or a line feed. -/
theorem base64Encode_no_newline (bs : List Byte) :
    ∀ c ∈ base64Encode bs, c ≠ 10 ∧ c ≠ 13 := by
  have hp : padChar ≠ 10 ∧ padChar ≠ 13 := by decide
  induction bs using base64Encode.induct with
  | case1 => simp [base64Encode]
  | case2 a =>
    intro c hc
    simp only [base64Encode, List.mem_cons, List.mem_singleton, List.not_mem_nil, or_false,
      or_self] at hc
    rcases hc with rfl | rfl | rfl
    · exact encodeChar_sextet_ne _
    · exact encodeChar_sextet_ne _
    · exact hp
  | case3 a b =>
    intro c hc
    simp only [base64Encode, List.mem_cons, List.mem_singleton, List.not_mem_nil,
      or_false] at hc
    rcases hc with rfl | rfl | rfl | rfl
    · exact encodeChar_sextet_ne _
    · exact encodeChar_sextet_ne _
    · exact encodeChar_sextet_ne _
    · exact hp
  | case4 a b c rest ih =>
    intro x hx
    simp only [base64Encode, List.mem_cons] at hx
    rcases hx with rfl | rfl | rfl | rfl | hx
    · exact encodeChar_sextet_ne _
    · exact encodeChar_sextet_ne _
    · exact encodeChar_sextet_ne _
    · exact encodeChar_sextet_ne _
    · exact ih x hx

/-- The round trip of `encoding/base64`: `DecodeString(EncodeToString(bs))` is
`bs` with a nil error. -/
theorem decodeString_encodeToString (bs : List Byte) :
    decodeString (encodeToString bs) = .ok bs := by
  unfold decodeString encodeToString
  rw [List.filter_eq_self.mpr, decodeQuanta_base64Encode]
  intro c hc
  have h := base64Encode_no_newline bs c hc
  simp [h.1, h.2]


/-! ## Lemmas on the hash, the cipher and the CFB stream -/

theorem Sum256_length (data : List Byte) : (Sum256 data).length = 32 := by
  simp [Sum256]

theorem toHash_length (plain : GoString) : (toHash plain).length = 32 := Sum256_length plain

theorem aesNewCipher_toHash (keyBase : GoString) :
    aesNewCipher (toHash keyBase) = .ok (aesEncryptBlock (toHash keyBase)) := by
  simp [aesNewCipher, toHash_length]

theorem xorKeyStream_length (x : CFB) (src : List Byte) :
    (x.xorKeyStream src).1.length = src.length := by
  induction src generalizing x with
  | nil => rfl
  | cons s src ih => simp [CFB.xorKeyStream, ih]

/-- Decrypting with a CFB stream undoes encrypting with a stream in the same
state: both shift the same cipher text bytes into the register. -/
theorem xorKeyStream_roundtrip (b : Block) (next out : List Byte) (outUsed : Nat)
    (src : List Byte) :
    (CFB.xorKeyStream ⟨b, next, out, outUsed, true⟩
      (CFB.xorKeyStream ⟨b, next, out, outUsed, false⟩ src).1).1 = src := by
  induction src generalizing next out outUsed with
  | nil => rfl
  | cons s src ih =>
    by_cases h : outUsed = out.length
    · simp [CFB.xorKeyStream, h, byte_xor_cancel, ih]
    · simp [CFB.xorKeyStream, h, byte_xor_cancel, ih]

theorem encryptAES_ok (keyBase : GoString) (data iv : List Byte) (hiv : iv.length = 16) :
    encryptAES (.ok iv) (toHash keyBase) data =
      .ok (iv ++ (CFB.xorKeyStream ⟨aesEncryptBlock (toHash keyBase), iv,
        List.replicate blockSize 0, blockSize, false⟩ data).1) := by
  simp [encryptAES, aesNewCipher_toHash, newCFB, hiv, blockSize]

theorem decryptAES_ok (keyBase : GoString) (h : List Byte) (hlen : 16 ≤ h.length) :
    decryptAES (toHash keyBase) h =
      .ok (CFB.xorKeyStream ⟨aesEncryptBlock (toHash keyBase), h.take 16,
        List.replicate blockSize 0, blockSize, true⟩ (h.drop 16)).1 := by
  have h1 : ¬ h.length < 16 := by omega
  have h2 : min 16 h.length = 16 := by omega
  simp [decryptAES, aesNewCipher_toHash, newCFB, blockSize, h1, h2]

theorem decryptAES_encryptAES (keyBase : GoString) (data iv : List Byte)
    (hiv : iv.length = 16) :
    ∃ out, encryptAES (.ok iv) (toHash keyBase) data = .ok out ∧
      out.length = 16 + data.length ∧ decryptAES (toHash keyBase) out = .ok data := by
  refine ⟨_, encryptAES_ok keyBase data iv hiv, ?_, ?_⟩
  · simp [xorKeyStream_length, hiv]
  · rw [decryptAES_ok _ _ (by simp [hiv])]
    have h1 : ∀ t : List Byte, (iv ++ t).take 16 = iv := by
      intro t
      rw [← hiv, List.take_left]
    have h2 : ∀ t : List Byte, (iv ++ t).drop 16 = t := by
      intro t
      rw [← hiv, List.drop_left]
    rw [h1, h2, xorKeyStream_roundtrip]


/-- The base64 decoder has no panicking path. -/
theorem decodeString_ne_panic (s : GoString) (w : String) : decodeString s ≠ .panic w := by
  unfold decodeString
  generalize s.filter _ = l
  induction l using decodeQuanta.induct <;> simp_all [decodeQuanta] <;> split_ifs <;> simp

/-- The round trip of `encryptString` and `decryptString` under one key base,
for a 16-byte IV. -/
theorem encryptString_roundtrip (plain keyBase : GoString) (iv : List Byte)
    (hiv : iv.length = 16) :
    ∃ enc, encryptString (.ok iv) plain keyBase = .ok enc ∧
      decryptString enc keyBase = .ok plain := by
  obtain ⟨out, henc, hlen, hdec⟩ := decryptAES_encryptAES keyBase plain iv hiv
  refine ⟨encodeToString out, ?_, ?_⟩
  · simp [encryptString, henc]
  · have h1 : ¬ out.length < 16 := by omega
    simp [decryptString, decodeString_encodeToString, blockSize, h1, hdec]

/-- With a non-empty password and a 16-byte IV, `encryptPassword` succeeds and
stores the encryption of the password under the key base `Host`. -/
theorem encryptPassword_ok {ρ : Type} (cfg : Configuration ρ) (iv : List Byte)
    (hiv : iv.length = 16) (hpw : cfg.Password ≠ []) :
    ∃ enc, encryptString (.ok iv) cfg.Password cfg.Host = .ok enc ∧
      decryptString enc cfg.Host = .ok cfg.Password ∧
      encryptPassword (.ok iv) cfg = ({ cfg with Password := enc }, .ok ()) := by
  obtain ⟨enc, henc, hdec⟩ := encryptString_roundtrip cfg.Password cfg.Host iv hiv
  exact ⟨enc, henc, hdec, by simp [encryptPassword, hpw, henc]⟩

/-! ## Lemmas on maps and on the loop over the clusters -/

theorem StringMap.get?_set {α : Type} (m : StringMap α) (k k' : String) (v : α) :
    (m.set k v).get? k' = if k = k' then some v else m.get? k' := by
  induction m with
  | nil => simp [StringMap.set, StringMap.get?]
  | cons e m ih =>
    unfold StringMap.set
    by_cases hek : e.1 = k
    · by_cases h : k = k'
      · simp [StringMap.get?, hek, h]
      · have : ¬ e.1 = k' := fun h' => h (hek ▸ h')
        simp [StringMap.get?, hek, h, this]
    · rw [if_neg hek]
      by_cases hek' : e.1 = k'
      · have : ¬ k = k' := fun h' => hek (h' ▸ hek')
        simp [StringMap.get?, hek', this]
      · simp [StringMap.get?, hek', ih]

theorem StringMap.getD_set {α : Type} (m : StringMap (List α)) (k k' : String) (v : List α) :
    (m.set k v).getD k' = if k = k' then v else m.getD k' := by
  unfold StringMap.getD
  rw [StringMap.get?_set]
  split <;> rfl

theorem StringMap.mem_keys_set {α : Type} (m : StringMap α) (k k' : String) (v : α) :
    k' ∈ (m.set k v).keys ↔ k' = k ∨ k' ∈ m.keys := by
  induction m with
  | nil => simp [StringMap.set, StringMap.keys]
  | cons e m ih =>
    unfold StringMap.set
    by_cases hek : e.1 = k
    · simp [StringMap.keys, hek]
    · rw [if_neg hek]
      simp only [StringMap.keys, List.map_cons, List.mem_cons] at ih ⊢
      rw [ih]
      tauto

/-- The loop over the clusters when every listing succeeds: every cluster is
queried in order, and the entry of a name grows by the listings of the clusters
of that name. -/
theorem collectConnectorNames_ok {κ : Type} (env : ConnectorsEnv κ)
    (clusters : List ConnectCluster) (m0 : StringMap (List String))
    (hok : ∀ c ∈ clusters, ∃ ns, env.getConnectors c.Name = .ok ns) :
    ∃ m, collectConnectorNames env clusters m0 =
        (clusters.map (fun c => .getConnectors c.Name), .ok m) ∧
      (∀ k, k ∈ m.keys ↔ k ∈ m0.keys ∨ ∃ c ∈ clusters, c.Name = k) ∧
      (∀ k, m.getD k = m0.getD k ++
        (clusters.filter (fun c => c.Name = k)).flatMap (fun c => env.namesOf c.Name)) := by
  induction clusters generalizing m0 with
  | nil => exact ⟨m0, rfl, by simp, by simp⟩
  | cons c cs ih =>
    obtain ⟨ns, hns⟩ := hok c (List.mem_cons_self _ _)
    obtain ⟨m, hm, hkeys, hget⟩ := ih (m0.set c.Name (m0.getD c.Name ++ ns))
      (fun d hd => hok d (List.mem_cons_of_mem _ hd))
    refine ⟨m, ?_, ?_, ?_⟩
    · simp [collectConnectorNames, hns, hm]
    · intro k
      rw [hkeys, StringMap.mem_keys_set]
      simp only [List.mem_cons, exists_eq_or_imp]
      constructor
      · rintro ((h | h) | h)
        · exact Or.inr (Or.inl h.symm)
        · exact Or.inl h
        · exact Or.inr (Or.inr h)
      · rintro (h | h | h)
        · exact Or.inl (Or.inr h)
        · exact Or.inl (Or.inl h.symm)
        · exact Or.inr h
    · intro k
      rw [hget, StringMap.getD_set]
      have hn : env.namesOf c.Name = ns := by simp [ConnectorsEnv.namesOf, hns]
      by_cases h : c.Name = k
      · simp [List.filter_cons, h, List.flatMap_cons, ← hn]
      · simp [List.filter_cons, h]

/-- The loop over the clusters when the listing of one cluster fails after the
listings of all clusters before it succeeded: the clusters up to that one are
queried and the loop ends with its error. -/
theorem collectConnectorNames_error {κ : Type} (env : ConnectorsEnv κ)
    (before : List ConnectCluster) (c : ConnectCluster) (after : List ConnectCluster)
    (m0 : StringMap (List String)) (err : Error)
    (hok : ∀ d ∈ before, ∃ ns, env.getConnectors d.Name = .ok ns)
    (herr : env.getConnectors c.Name = .error err) :
    collectConnectorNames env (before ++ c :: after) m0 =
      ((before ++ [c]).map (fun d => .getConnectors d.Name), .error err) := by
  induction before generalizing m0 with
  | nil => simp [collectConnectorNames, herr]
  | cons d ds ih =>
    obtain ⟨ns, hns⟩ := hok d (List.mem_cons_self _ _)
    have := ih (m0.set d.Name (m0.getD d.Name ++ ns))
      (fun x hx => hok x (List.mem_cons_of_mem _ hx))
    simp [collectConnectorNames, hns, this]

/-! ## Claims on password encryption -/

/-- C1. For every plaintext `plain`, every key base `keyBase` (the empty string
included) and every 16-byte IV delivered by the random source, `encryptString`
returns a cipher text without error and `decryptString` of that cipher text
under the same key base returns exactly `plain` and no error. -/
theorem decryptString_encryptString (plain keyBase : GoString) (iv : List Byte)
    (hiv : iv.length = 16) :
    ∃ enc, encryptString (.ok iv) plain keyBase = .ok enc ∧
      decryptString enc keyBase = .ok plain := by
  exact encryptString_roundtrip plain keyBase iv hiv

/-- C1, at the password `hunter2`, the empty key base and the IV `0, 1, .., 15`. -/
theorem decryptString_encryptString_witness :
    (List.map (Fin.ofNat : Nat → Byte) (List.range 16)).length = 16 ∧
    ∃ enc, encryptString (.ok (List.map (Fin.ofNat : Nat → Byte) (List.range 16)))
        (bytesOfString "hunter2") [] = .ok enc ∧
      decryptString enc [] = .ok (bytesOfString "hunter2") :=
  ⟨by decide, decryptString_encryptString _ _ _ (by decide)⟩

/-- C2. For every configuration with a non-empty `Password`, when the random
source delivers a 16-byte IV: `encryptPassword` returns no error and leaves
`Host` unchanged; `decryptPassword` then restores the configuration, so the
original `Password` with the same `Host`; the new password is the encryption
of the old one under the key base `Host`, and decryption recovers the password
inside any configuration with the same `Host`, whatever its other fields. -/
theorem decryptPassword_encryptPassword {ρ : Type} (cfg : Configuration ρ) (iv : List Byte)
    (hiv : iv.length = 16) (hpw : cfg.Password ≠ []) :
    (encryptPassword (.ok iv) cfg).2 = .ok () ∧
    (encryptPassword (.ok iv) cfg).1.Host = cfg.Host ∧
    decryptPassword (encryptPassword (.ok iv) cfg).1 = .ok cfg ∧
    encryptString (.ok iv) cfg.Password cfg.Host
      = .ok (encryptPassword (.ok iv) cfg).1.Password ∧
    ∀ other : Configuration ρ, other.Host = cfg.Host →
      decryptPassword { other with Password := (encryptPassword (.ok iv) cfg).1.Password }
        = .ok { other with Password := cfg.Password } := by
  obtain ⟨enc, henc, hdec, hres⟩ := encryptPassword_ok cfg iv hiv hpw
  rw [hres]
  refine ⟨rfl, rfl, ?_, henc, ?_⟩
  · simp [decryptPassword, hdec]
  · intro other hh
    simp [decryptPassword, hh, hdec]

/-- C2, at a configuration with host `http://localhost:3030` and password
`hunter2`. -/
theorem decryptPassword_encryptPassword_witness :
    (List.map (Fin.ofNat : Nat → Byte) (List.range 16)).length = 16 ∧
    bytesOfString "hunter2" ≠ [] ∧
    decryptPassword (encryptPassword (.ok (List.map (Fin.ofNat : Nat → Byte) (List.range 16)))
      (⟨bytesOfString "http://localhost:3030", bytesOfString "admin",
        bytesOfString "hunter2", [], false, ()⟩ : Configuration Unit)).1
      = .ok ⟨bytesOfString "http://localhost:3030", bytesOfString "admin",
        bytesOfString "hunter2", [], false, ()⟩ :=
  ⟨by decide, by decide,
    (decryptPassword_encryptPassword
      (⟨bytesOfString "http://localhost:3030", bytesOfString "admin",
        bytesOfString "hunter2", [], false, ()⟩ : Configuration Unit)
      _ (by decide) (by decide)).2.2.1⟩

/-- C3. `decryptString` returns an error exactly when `DecodeString` rejects the
input or the decoded bytes are fewer than 16, and in the latter case the error
is `short cipher, min len: 16`; it never panics, so `decryptAES` never slices
past the end of the decoded bytes; every input that decodes to at least 16
bytes is accepted under any key base, the result being the output of
`decryptAES`, because the key `toHash keyBase` has 32 bytes and `aes.NewCipher`
accepts it. -/
theorem decryptString_error_iff (encryptedRaw keyBase : GoString) :
    ((decryptString encryptedRaw keyBase).isError = true ↔
      ((decodeString encryptedRaw).isError = true ∨
        ∃ bs, decodeString encryptedRaw = .ok bs ∧ bs.length < 16)) ∧
    (∀ bs, decodeString encryptedRaw = .ok bs → bs.length < 16 →
      decryptString encryptedRaw keyBase = .error (.errorf "short cipher, min len: 16")) ∧
    (decryptString encryptedRaw keyBase).isPanic = false ∧
    (∀ bs, decodeString encryptedRaw = .ok bs → 16 ≤ bs.length →
      (decryptAES (toHash keyBase) bs).isPanic = false ∧
      ∃ plain, decryptAES (toHash keyBase) bs = .ok plain ∧
        plain.length = bs.length - 16 ∧
        decryptString encryptedRaw keyBase = .ok plain) ∧
    (toHash keyBase).length = 32 ∧
    (aesNewCipher (toHash keyBase)).isError = false := by
  have hshort : ∀ bs, decodeString encryptedRaw = .ok bs → bs.length < 16 →
      decryptString encryptedRaw keyBase = .error (.errorf "short cipher, min len: 16") := by
    intro bs hbs hlt
    simp [decryptString, hbs, blockSize, hlt]
  have hlong : ∀ bs, decodeString encryptedRaw = .ok bs → 16 ≤ bs.length →
      (decryptAES (toHash keyBase) bs).isPanic = false ∧
      ∃ plain, decryptAES (toHash keyBase) bs = .ok plain ∧
        plain.length = bs.length - 16 ∧
        decryptString encryptedRaw keyBase = .ok plain := by
    intro bs hbs hge
    have h1 : ¬ bs.length < 16 := by omega
    refine ⟨by simp [decryptAES_ok keyBase bs hge, Result.isPanic],
      _, decryptAES_ok keyBase bs hge, ?_, ?_⟩
    · simp [xorKeyStream_length]
    · simp [decryptString, hbs, blockSize, h1, decryptAES_ok keyBase bs hge]
  refine ⟨?_, hshort, ?_, hlong, toHash_length keyBase, ?_⟩
  · cases hd : decodeString encryptedRaw with
    | ok bs =>
      by_cases hlt : bs.length < 16
      · simp [hshort bs hd hlt, Result.isError, hlt]
      · obtain ⟨_, plain, _, _, hp⟩ := hlong bs hd (by omega)
        simp [hp, Result.isError, hlt]
    | error e => simp [decryptString, hd, Result.isError]
    | panic w => simp [decryptString, hd, Result.isError]
  · cases hd : decodeString encryptedRaw with
    | ok bs =>
      by_cases hlt : bs.length < 16
      · simp [hshort bs hd hlt, Result.isPanic]
      · obtain ⟨_, plain, _, _, hp⟩ := hlong bs hd (by omega)
        simp [hp, Result.isPanic]
    | error e => simp [decryptString, hd, Result.isPanic]
    | panic w =>
      exact absurd hd (decodeString_ne_panic encryptedRaw w)
  · simp [aesNewCipher_toHash, Result.isError]

/-- C4. `encryptPassword` on an empty `Password` returns the error
`empty password` and leaves the configuration as it was; whenever it returns
no error the configuration afterwards is the old one with only `Password`
replaced, and the new `Password` is the URL-safe base64 encoding of
`16 + len(old password)` bytes. -/
theorem encryptPassword_spec {ρ : Type} (rand : Except Error (List Byte)) (cfg : Configuration ρ) :
    (cfg.Password = [] →
      encryptPassword rand cfg = (cfg, .error (.errorf "empty password"))) ∧
    ((encryptPassword rand cfg).2 = .ok () →
      ∃ bs, bs.length = 16 + cfg.Password.length ∧
        (encryptPassword rand cfg).1 = { cfg with Password := encodeToString bs }) := by
  constructor
  · intro h
    simp [encryptPassword, h]
  · intro h
    by_cases hpw : cfg.Password = []
    · simp [encryptPassword, hpw] at h
    · cases rand with
      | ok iv =>
        by_cases hiv : iv.length = 16
        · obtain ⟨out, henc, hlen, _⟩ := decryptAES_encryptAES cfg.Host cfg.Password iv hiv
          refine ⟨out, hlen, ?_⟩
          simp [encryptPassword, hpw, encryptString, henc]
        · simp [encryptPassword, hpw, encryptString, encryptAES, aesNewCipher_toHash, newCFB,
            blockSize, hiv] at h
      | error e =>
        simp [encryptPassword, hpw, encryptString, encryptAES, aesNewCipher_toHash] at h

/-- C4, at a configuration with password `hunter2` and a 16-byte IV: the call
returns no error, and the new password encodes 23 bytes. -/
theorem encryptPassword_spec_witness :
    ∃ bs, bs.length = 16 + 7 ∧
      (encryptPassword (.ok (List.map (Fin.ofNat : Nat → Byte) (List.range 16)))
        (⟨bytesOfString "http://localhost:3030", bytesOfString "admin",
          bytesOfString "hunter2", [], false, ()⟩ : Configuration Unit)).1
        = ⟨bytesOfString "http://localhost:3030", bytesOfString "admin",
          encodeToString bs, [], false, ()⟩ :=
  (encryptPassword_spec (.ok (List.map (Fin.ofNat : Nat → Byte) (List.range 16)))
    (⟨bytesOfString "http://localhost:3030", bytesOfString "admin",
      bytesOfString "hunter2", [], false, ()⟩ : Configuration Unit)).2
    (by
      obtain ⟨enc, -, -, hres⟩ := encryptPassword_ok
        (⟨bytesOfString "http://localhost:3030", bytesOfString "admin",
          bytesOfString "hunter2", [], false, ()⟩ : Configuration Unit)
        (List.map (Fin.ofNat : Nat → Byte) (List.range 16)) (by decide) (by decide)
      rw [hres])

/-! ## Claims on the commands `configure`, `context` and `context delete` -/

/-- C5. When the stored configuration is valid and `--reset` is not set, an
invocation of `configure` whose set root flags are all among `--context` and
`--config` (none at all included) returns the error `configuration already
exists, try 'configure --reset' instead` with no event: no question is asked
and `save` is not called. -/
theorem configure_already_exists (env : ConfigureEnv) (hvalid : env.isValid = true)
    (hreset : env.reset = false) (hflags : env.rootFlags ⊆ {"context", "config"}) :
    newConfigureCommand_RunE env =
      ([], some (.errorf "configuration already exists, try 'configure --reset' instead")) := by
  have hle := env.nFlag_le
  have hcond : env.nFlag = 0 ∨ (env.nFlag = 1 ∧ "context" ∈ env.rootFlags) ∨
      (env.nFlag ≤ 2 ∧ "config" ∈ env.rootFlags) := by
    by_cases hc : "config" ∈ env.rootFlags
    · right; right
      refine ⟨?_, hc⟩
      calc env.nFlag ≤ env.rootFlags.card := hle
        _ ≤ ({"context", "config"} : Finset String).card := Finset.card_le_card hflags
        _ = 2 := by decide
    · have hsub : env.rootFlags ⊆ {"context"} := by
        intro y hy
        have := hflags hy
        simp only [Finset.mem_insert, Finset.mem_singleton] at this
        rcases this with rfl | rfl
        · simp
        · exact absurd hy hc
      have hcard : env.rootFlags.card ≤ 1 := by
        calc env.rootFlags.card ≤ ({"context"} : Finset String).card := Finset.card_le_card hsub
          _ = 1 := by decide
      rcases Nat.eq_zero_or_pos env.nFlag with h0 | hpos
      · exact Or.inl h0
      · right; left
        obtain ⟨x, hx⟩ := Finset.card_pos.mp (Nat.lt_of_lt_of_le hpos hle)
        have hxc : x = "context" := by simpa using hsub hx
        exact ⟨by omega, hxc ▸ hx⟩
  simp only [newConfigureCommand_RunE, hvalid, hreset, Bool.not_true, Bool.or_false,
    Bool.false_eq_true, if_false, if_pos hcond]

/-- C5, at an invocation with `--context` and `--config` both set and
counted. -/
theorem configure_already_exists_witness :
    newConfigureCommand_RunE (sampleConfigureEnv 2 {"context", "config"} (by decide)) =
      ([], some (.errorf "configuration already exists, try 'configure --reset' instead")) :=
  configure_already_exists _ rfl rfl (by decide)

/-- C6, the code at a valid stored configuration without `--reset`, where
`NFlag()` is 2 and the changed root flags are `--config` and `--host`: the
third disjunct of the guard, `nFlags <= 2 && Flag("config").Changed`, holds, so
the command returns the `configuration already exists` error and does not
save, although `--host` is set. In the same situation with `--context` in the
place of `--config`, and with `--config`, `--host` and `--user` all counted,
the command saves. -/
theorem configure_config_and_host :
    newConfigureCommand_RunE (sampleConfigureEnv 2 {"config", "host"} (by decide)) =
      ([], some (.errorf "configuration already exists, try 'configure --reset' instead")) ∧
    newConfigureCommand_RunE (sampleConfigureEnv 2 {"context", "host"} (by decide)) =
      ([.save], none) ∧
    newConfigureCommand_RunE (sampleConfigureEnv 3 {"config", "host", "user"} (by decide)) =
      ([.save], none) := by
  decide

/-- C7. If the current context does not exist, the `RunE` of `context` returns
the error `current context does not exist, please use the configure command
first` (with `configure` in backquotes) with no event and an unchanged
configuration: nothing is printed, validated or offered for editing. -/
theorem context_without_current {ρ : Type} (env : ContextEnv ρ) (config : Config ρ)
    (hmissing : env.currentContextExists config = false) :
    newConfigurationContextCommand_RunE env config =
      ([], config, some (.errorf
        "current context does not exist, please use the `configure` command first")) := by
  simp [newConfigurationContextCommand_RunE, hmissing]

/-- C7, at a configuration whose current context `staging` is not among the
contexts. -/
theorem context_without_current_witness :
    newConfigurationContextCommand_RunE sampleContextEnv
        ⟨"staging", [("default", ⟨[], [], [], [], false, ()⟩)]⟩ =
      ([], ⟨"staging", [("default", ⟨[], [], [], [], false, ()⟩)]⟩, some (.errorf
        "current context does not exist, please use the `configure` command first")) :=
  context_without_current sampleContextEnv _ (by decide)

/-- C8. For `context delete name`: when `removeContext` reports success the
command makes one report, `echo` of the message `'name' context deleted`, which
is extended by `, current context set to 'new'`, `new` being the current
context after the removal, exactly when `name` was the current context before
the removal (the extended message never equals the plain one); when
`removeContext` reports failure the command makes one report, `echo` of
`unable to delete context '%s', at least one more valid context should be
present` with the argument `name`, and no success message. In both cases the
error of `echo` is returned. -/
theorem context_delete_message {ρ : Type} (env : ContextEnv ρ) (config : Config ρ)
    (name : String) (more : List String) :
    ((env.removeContext config name).1 = true →
      ∃ msg, newDeleteConfigurationContextCommand_RunE env config (name :: more) =
          ([.echo msg []], (env.removeContext config name).2, env.echo msg []) ∧
        (config.CurrentContext = name →
          msg = "'" ++ name ++ "' context deleted" ++ ", current context set to '" ++
            (env.removeContext config name).2.CurrentContext ++ "'") ∧
        (config.CurrentContext ≠ name → msg = "'" ++ name ++ "' context deleted") ∧
        (msg ≠ "'" ++ name ++ "' context deleted" ↔ config.CurrentContext = name)) ∧
    ((env.removeContext config name).1 = false →
      newDeleteConfigurationContextCommand_RunE env config (name :: more) =
        ([.echo "unable to delete context '%s', at least one more valid context should be present"
            [name]],
          (env.removeContext config name).2,
          env.echo "unable to delete context '%s', at least one more valid context should be present"
            [name])) := by
  have hne : ∀ s t : String, s ++ ", current context set to '" ++ t ++ "'" ≠ s := by
    intro s t h
    have := congrArg String.length h
    simp only [String.length_append] at this
    have h2 : 0 < ", current context set to '".length := by decide
    omega
  constructor
  · intro hdel
    by_cases hcur : config.CurrentContext = name
    · refine ⟨_, ?_, fun _ => rfl, fun h => absurd hcur h, ?_⟩
      · simp [newDeleteConfigurationContextCommand_RunE, hdel, hcur]
      · simp [hcur, hne]
    · refine ⟨"'" ++ name ++ "' context deleted", ?_, fun h => absurd h hcur, fun _ => rfl, ?_⟩
      · simp [newDeleteConfigurationContextCommand_RunE, hdel, hcur]
      · simp [hcur]
  · intro hdel
    simp [newDeleteConfigurationContextCommand_RunE, hdel]

/-- C8, at the removal of the current context `default` next to `staging`:
the message names the new current context. -/
theorem context_delete_message_witness :
    newDeleteConfigurationContextCommand_RunE sampleContextEnv
        ⟨"default", [("default", ⟨[], [], [], [], false, ()⟩),
          ("staging", ⟨[], [], [], [], false, ()⟩)]⟩ ["default"] =
      ([.echo "'default' context deleted, current context set to 'staging'" []],
        ⟨"staging", [("staging", ⟨[], [], [], [], false, ()⟩)]⟩, none) := by
  obtain ⟨msg, hrun, hmsg, -, -⟩ := (context_delete_message sampleContextEnv
    ⟨"default", [("default", ⟨[], [], [], [], false, ()⟩),
      ("staging", ⟨[], [], [], [], false, ()⟩)]⟩ "default" []).1 (by decide)
  rw [hrun, hmsg rfl]
  rfl

/-! ## Claims on the session of `login` -/

/-- C9. In the session loop, a line that equals `exit` once all its trailing
carriage returns and line feeds are removed ends the process with status 0:
the body of the loop produces no event for it, so no `Find`, `ParseFlags`,
`Run` or `RunE`, and leaves the state as it was; the loop that reads it prints
the prompt and exits; and whatever lines precede it, the lines after it are
never processed. -/
theorem exit_line_ends_session {σ : Type}
    (find : List String → Except Error (Command σ × List String)) (readErr : Error)
    (line : String) (reads : List String) (s : σ)
    (hexit : stringsTrimRight line "\r\n" = "exit") :
    loginLine find line s = ([], s, some (.exit 0)) ∧
    loginLoop find readErr (line :: reads) s = ([.prompt], s, .exit 0) ∧
    ∀ before : List String,
      loginLoop find readErr (before ++ line :: reads) s =
        loginLoop find readErr (before ++ [line]) s := by
  have h1 : ∀ t : σ, loginLine find line t = ([], t, some (.exit 0)) := by
    intro t
    simp [loginLine, hexit]
  have h2 : ∀ (rest : List String) (t : σ),
      loginLoop find readErr (line :: rest) t = ([.prompt], t, .exit 0) := by
    intro rest t
    simp [loginLoop, h1]
  refine ⟨h1 s, h2 reads s, ?_⟩
  intro before
  induction before generalizing s with
  | nil => simp [h2]
  | cons l before ih =>
    simp only [List.cons_append, loginLoop, List.append_eq]
    rcases loginLine find l s with ⟨ev, t, _ | e⟩
    · simp only [ih t]
    · rfl

/-- C9, at the line `exit` followed by a carriage return and a line feed, in a
session where no command is known. -/
theorem exit_line_ends_session_witness :
    stringsTrimRight "exit\r\n" "\r\n" = "exit" ∧
    loginLoop (fun _ => (.error (.external "unknown command") :
        Except Error (Command Unit × List String))) (.external "EOF")
      ["exit\r\n", "contexts\n"] () = ([.prompt], (), .exit 0) :=
  ⟨by decide,
    (exit_line_ends_session _ (.external "EOF") "exit\r\n" ["contexts\n"] () (by decide)).2.1⟩

/-! ## Claims on the command `connectors` -/

/-- C10, as stated, fails when the listing of the clusters names a cluster
twice: with two clusters `dev` whose connectors are `sink`, the branch for all
clusters maps `dev` to `sink, sink`, which is not the list of connector names
of the cluster. -/
theorem connectors_duplicate_cluster :
    duplicateClusterEnv.getConnectClusters = .ok [⟨"dev"⟩, ⟨"dev"⟩] ∧
    duplicateClusterEnv.getConnectors "dev" = .ok ["sink"] ∧
    (connectorNamesOf duplicateClusterEnv "*").2 = .ok [("dev", ["sink", "sink"])] ∧
    ¬ (∀ m, (connectorNamesOf duplicateClusterEnv "*").2 = .ok m →
        ∀ c ∈ [(⟨"dev"⟩ : ConnectCluster), ⟨"dev"⟩],
          duplicateClusterEnv.getConnectors c.Name = .ok (StringMap.getD m c.Name)) := by
  have h : (connectorNamesOf duplicateClusterEnv "*").2 = .ok [("dev", ["sink", "sink"])] := rfl
  refine ⟨rfl, rfl, h, ?_⟩
  intro hall
  have := hall _ h ⟨"dev"⟩ (List.mem_cons_self _ _)
  simp [duplicateClusterEnv, StringMap.getD, StringMap.get?] at this

/-- C10, amended. When `clusterName` is `*` or empty: an error of the cluster
listing ends the command with that error after the one call; when every
cluster's connector listing succeeds every cluster returned is queried, in
order, the keys of the map are the cluster names, each name is mapped to the
connector names returned for the clusters of that name, one listing after the
other, and so to that cluster's connector names when the cluster names are
distinct; when a cluster's listing fails after the earlier ones succeeded the
command ends with that error, the later clusters are not queried. Otherwise
only the named cluster is queried: the map has exactly that one key with the
names returned, or the command ends with the error of the listing. Whenever
the first part ends with an error the command returns that error and none of
its events prints. -/
theorem connectors_names {κ : Type} (env : ConnectorsEnv κ) (clusterName : String)
    (namesOnly noJSON : Bool) :
    ((clusterName = "*" ∨ clusterName = "") →
      (∀ err, env.getConnectClusters = .error err →
        newConnectorsCommand_RunE env clusterName namesOnly noJSON =
          ([.getConnectClusters], some err)) ∧
      (∀ clusters, env.getConnectClusters = .ok clusters →
        ((∀ c ∈ clusters, ∃ ns, env.getConnectors c.Name = .ok ns) →
          ∃ m, connectorNamesOf env clusterName =
              (.getConnectClusters :: clusters.map (fun c => .getConnectors c.Name), .ok m) ∧
            (∀ k, k ∈ m.keys ↔ ∃ c ∈ clusters, c.Name = k) ∧
            (∀ k, m.getD k =
              (clusters.filter (fun c => c.Name = k)).flatMap
                (fun c => env.namesOf c.Name)) ∧
            ((clusters.map (fun c => c.Name)).Nodup →
              ∀ c ∈ clusters, env.getConnectors c.Name = .ok (m.getD c.Name))) ∧
        (∀ before c after err, clusters = before ++ c :: after →
          (∀ d ∈ before, ∃ ns, env.getConnectors d.Name = .ok ns) →
          env.getConnectors c.Name = .error err →
          newConnectorsCommand_RunE env clusterName namesOnly noJSON =
            (.getConnectClusters :: (before ++ [c]).map (fun d => .getConnectors d.Name),
              some err)))) ∧
    (¬ (clusterName = "*" ∨ clusterName = "") →
      (∀ names, env.getConnectors clusterName = .ok names →
        connectorNamesOf env clusterName =
          ([.getConnectors clusterName], .ok [(clusterName, names)]) ∧
        StringMap.keys [(clusterName, names)] = [clusterName]) ∧
      (∀ err, env.getConnectors clusterName = .error err →
        newConnectorsCommand_RunE env clusterName namesOnly noJSON =
          ([.getConnectors clusterName, .setNotFoundMessage
            ("unable to retrieve connectors, cluster with name '" ++ clusterName ++
              "' does not exist")], some err))) ∧
    (∀ err, (connectorNamesOf env clusterName).2 = .error err →
      (newConnectorsCommand_RunE env clusterName namesOnly noJSON).2 = some err ∧
      (newConnectorsCommand_RunE env clusterName namesOnly noJSON).1 =
        (connectorNamesOf env clusterName).1 ∧
      ∀ ev ∈ (newConnectorsCommand_RunE env clusterName namesOnly noJSON).1,
        ev.isPrint = false) := by
  refine ⟨?_, ?_, ?_⟩
  · intro hall
    refine ⟨?_, ?_⟩
    · intro err herr
      simp [newConnectorsCommand_RunE, connectorNamesOf, hall, herr]
    · intro clusters hcl
      refine ⟨?_, ?_⟩
      · intro hok
        obtain ⟨m, hm, hkeys, hget⟩ := collectConnectorNames_ok env clusters [] hok
        refine ⟨m, ?_, ?_, ?_, ?_⟩
        · simp [connectorNamesOf, hall, hcl, hm]
        · intro k
          rw [hkeys]
          simp [StringMap.keys]
        · intro k
          rw [hget]
          simp [StringMap.getD, StringMap.get?]
        · intro hnd c hc
          obtain ⟨ns, hns⟩ := hok c hc
          have hfil : clusters.filter (fun d => d.Name = c.Name) = [c] := by
            clear hm hkeys hget hok hcl
            induction clusters with
            | nil => cases hc
            | cons d ds ih =>
              simp only [List.map_cons, List.nodup_cons, List.mem_map, not_exists,
                not_and] at hnd
              rcases List.mem_cons.mp hc with rfl | hmem
              · have hrest : ds.filter (fun d => d.Name = c.Name) = [] := by
                  rw [List.filter_eq_nil_iff]
                  intro x hx
                  simpa using hnd.1 x hx
                simp [List.filter_cons, hrest]
              · have hdc : ¬ d.Name = c.Name := fun h => hnd.1 c hmem h.symm
                simp [List.filter_cons, hdc, ih hnd.2 hmem]
          rw [hget, hfil]
          simp [StringMap.getD, StringMap.get?, ConnectorsEnv.namesOf, hns]
      · intro before c after err hsplit hok herr
        subst hsplit
        simp [newConnectorsCommand_RunE, connectorNamesOf, hall, hcl,
          collectConnectorNames_error env before c after [] err hok herr]
  · intro hnamed
    refine ⟨?_, ?_⟩
    · intro names hnames
      simp [connectorNamesOf, hnamed, hnames, StringMap.keys]
    · intro err herr
      simp [newConnectorsCommand_RunE, connectorNamesOf, hnamed, herr]
  · intro err herr
    have hrun : newConnectorsCommand_RunE env clusterName namesOnly noJSON =
        ((connectorNamesOf env clusterName).1, some err) := by
      unfold newConnectorsCommand_RunE
      rcases hc : connectorNamesOf env clusterName with ⟨ev, r⟩
      rw [hc] at herr
      simp only at herr
      subst herr
      rfl
    refine ⟨by rw [hrun], by rw [hrun], ?_⟩
    rw [hrun]
    simp only
    intro ev hev
    unfold connectorNamesOf at hev herr
    split_ifs at hev herr with hall
    · cases hcl : env.getConnectClusters with
      | error e =>
        simp only [hcl, List.mem_singleton] at hev
        subst hev
        rfl
      | ok clusters =>
        simp only [hcl, List.mem_cons] at hev herr
        rcases hev with rfl | hev
        · rfl
        · clear hcl
          generalize ([] : StringMap (List String)) = m0 at hev herr
          induction clusters generalizing m0 with
          | nil => simp [collectConnectorNames] at hev
          | cons c cs ih =>
            unfold collectConnectorNames at hev herr
            cases hg : env.getConnectors c.Name with
            | error e =>
              simp only [hg, List.mem_singleton] at hev
              subst hev
              rfl
            | ok ns =>
              simp only [hg, List.mem_cons] at hev herr
              rcases hev with rfl | hev
              · rfl
              · exact ih _ hev herr
    · cases hg : env.getConnectors clusterName with
      | error e =>
        simp only [hg, List.mem_cons, List.mem_singleton, List.not_mem_nil, or_false] at hev
        rcases hev with rfl | rfl <;> rfl
      | ok ns => simp [hg] at herr

/-- C10 amended, at a client with the clusters `dev` and `prod`: both are
queried and each is mapped to its connector names. -/
theorem connectors_names_witness :
    ∃ m, connectorNamesOf twoClusterEnv "*" =
        ([.getConnectClusters, .getConnectors "dev", .getConnectors "prod"], .ok m) ∧
      twoClusterEnv.getConnectors "dev" = .ok (m.getD "dev") ∧
      twoClusterEnv.getConnectors "prod" = .ok (m.getD "prod") := by
  obtain ⟨m, hm, -, -, hnd⟩ := (((connectors_names twoClusterEnv "*" false false).1
    (Or.inl rfl)).2 [⟨"dev"⟩, ⟨"prod"⟩] rfl).1 (by
      intro c hc
      simp only [List.mem_cons, List.mem_singleton, List.not_mem_nil, or_false] at hc
      rcases hc with rfl | rfl
      · exact ⟨_, rfl⟩
      · exact ⟨_, rfl⟩)
  exact ⟨m, hm, hnd (by decide) _ (List.mem_cons_self _ _),
    hnd (by decide) _ (List.mem_cons_of_mem _ (List.mem_cons_self _ _))⟩

/-! ## Lemmas on the session loop -/

/-- A line ends the session only as the `exit` line, with status 0 and no
event, or by a command named `logout` that was found, parsed its flags and was
run: with status 0 after `Run` or after a `RunE` without error, with status 1
after a `RunE` that returned an error. -/
theorem loginLine_some {σ : Type}
    (find : List String → Except Error (Command σ × List String)) (line : String) (s t : σ)
    (ev : List LoginEvent) (e : SessionEnd)
    (h : loginLine find line s = (ev, t, some e)) :
    (stringsTrimRight line "\r\n" = "exit" ∧ ev = [] ∧ t = s ∧ e = .exit 0) ∨
    (stringsTrimRight line "\r\n" ≠ "exit" ∧ ∃ c flags s1,
      find (stringsSplit (stringsTrimRight line "\r\n") ' ') = .ok (c, flags) ∧
      c.name = logoutCmdName ∧ c.parseFlags flags s = (s1, none) ∧
      ((∃ run, c.run = some run ∧ e = .exit 0 ∧
          t = run (sessionArgs (stringsSplit (stringsTrimRight line "\r\n") ' ') flags) s1) ∨
        (∃ runE, c.run = none ∧ c.runE = some runE ∧
          ((e = .exit 0 ∧
              runE (sessionArgs (stringsSplit (stringsTrimRight line "\r\n") ' ') flags) s1 =
                (t, none)) ∨
            (∃ err, e = .exit 1 ∧
              runE (sessionArgs (stringsSplit (stringsTrimRight line "\r\n") ' ') flags) s1 =
                (t, some err)))))) := by
  unfold loginLine at h
  by_cases hexit : stringsTrimRight line "\r\n" = "exit"
  · left
    simp only [hexit, if_true, Prod.mk.injEq, Option.some.injEq] at h
    exact ⟨hexit, h.1.symm, h.2.1.symm, h.2.2.symm⟩
  · right
    refine ⟨hexit, ?_⟩
    simp only [hexit, if_false] at h
    cases hf : find (stringsSplit (stringsTrimRight line "\r\n") ' ') with
    | error err => simp [hf] at h
    | ok p =>
      obtain ⟨c, flags⟩ := p
      simp only [hf] at h
      by_cases hname : c.name = "login" ∨ c.name = "configure"
      · simp [hname] at h
      · simp only [hname, if_false] at h
        rcases hp : c.parseFlags flags s with ⟨s1, _ | perr⟩
        · simp only [hp] at h
          refine ⟨c, flags, s1, rfl, ?_⟩
          rcases hr : c.run with _ | run
          · rcases hre : c.runE with _ | runE
            · simp [hr, hre] at h
            · simp only [hr, hre] at h
              rcases hres : runE (sessionArgs
                (stringsSplit (stringsTrimRight line "\r\n") ' ') flags) s1 with ⟨s2, _ | rerr⟩
              · simp only [sessionArgs] at hres
                simp only [hres] at h
                by_cases hl : c.name = logoutCmdName
                · simp only [hl, if_true, Prod.mk.injEq, Option.some.injEq] at h
                  exact ⟨hl, hp, Or.inr ⟨runE, rfl, rfl,
                    Or.inl ⟨h.2.2.symm, by rw [← h.2.1]; simp only [sessionArgs]; exact hres⟩⟩⟩
                · simp [hl] at h
              · simp only [sessionArgs] at hres
                simp only [hres] at h
                by_cases hl : c.name = logoutCmdName
                · simp only [hl, if_true, Prod.mk.injEq, Option.some.injEq] at h
                  exact ⟨hl, hp, Or.inr ⟨runE, rfl, rfl,
                    Or.inr ⟨rerr, h.2.2.symm, by rw [← h.2.1]; simp only [sessionArgs]; exact hres⟩⟩⟩
                · simp [hl] at h
          · simp only [hr] at h
            by_cases hl : c.name = logoutCmdName
            · simp only [hl, if_true, Prod.mk.injEq, Option.some.injEq] at h
              exact ⟨hl, hp, Or.inl ⟨run, rfl, h.2.2.symm, by
                rw [← h.2.1]
                simp [sessionArgs]⟩⟩
            · simp [hl] at h
        · simp [hp] at h

/-- The session loop either handles every line and returns the error of the
failed read, or stops at the first line that ends the session, with the end
that this line gives; the lines after it are not handled. -/
theorem loginLoop_end {σ : Type}
    (find : List String → Except Error (Command σ × List String)) (readErr : Error)
    (reads : List String) (s : σ) :
    (∃ t, afterLines find reads s = some t ∧
      (loginLoop find readErr reads s).2 = (t, .returned (some readErr))) ∨
    (∃ before line after t ev t1 e, reads = before ++ line :: after ∧
      afterLines find before s = some t ∧ loginLine find line t = (ev, t1, some e) ∧
      (loginLoop find readErr reads s).2 = (t1, e)) := by
  induction reads generalizing s with
  | nil => exact Or.inl ⟨s, rfl, rfl⟩
  | cons line reads ih =>
    rcases hl : loginLine find line s with ⟨ev, t, _ | e⟩
    · rcases ih t with ⟨u, hu, hloop⟩ | ⟨before, l, after, u, ev1, t1, e, hsplit, hb, hline, hloop⟩
      · left
        refine ⟨u, ?_, ?_⟩
        · simp [afterLines, hl, hu]
        · simp [loginLoop, hl, hloop]
      · right
        refine ⟨line :: before, l, after, u, ev1, t1, e, ?_, ?_, hline, ?_⟩
        · simp [hsplit]
        · simp [afterLines, hl, hb]
        · simp [loginLoop, hl, hloop]
    · right
      exact ⟨[], line, reads, s, ev, t, e, rfl, rfl, hl, by simp [loginLoop, hl]⟩

/-! ## Claims on the end of the session of `login` -/

/-- C11. No error that arises while a line is handled ends the session loop.
For a line that is not the `exit` line: a failed command lookup, a flag-parse
error, a command without `Run` and `RunE`, and an error returned by the `RunE`
of a command not named `logout` each end the handling of the line with a
printed message and without an end of the session; and a line handled without
an end of the session is followed by the prompt and the read of the next line.
A line ends the session only as the `exit` line, with status 0, or by the
command named `logout` once it was run: status 1 if its `RunE` returned an
error, status 0 otherwise; and such a run of `logout` does end it. The loop
as a whole either handles every line and returns the error of the failed read,
or ends at the first line that ends the session, with the status of that
line. -/
theorem session_ends_only {σ : Type}
    (find : List String → Except Error (Command σ × List String)) (readErr : Error) :
    (∀ line s err, stringsTrimRight line "\r\n" ≠ "exit" →
      find (sessionWords line) = .error err →
      loginLine find line s = ([.find (sessionWords line), .printErr err], s, none)) ∧
    (∀ line s c flags t err, stringsTrimRight line "\r\n" ≠ "exit" →
      find (sessionWords line) = .ok (c, flags) →
      ¬ (c.name = "login" ∨ c.name = "configure") →
      c.parseFlags flags s = (t, some err) →
      loginLine find line s =
        ([.find (sessionWords line), .parseFlags c.name flags, .printErr err], t, none)) ∧
    (∀ line s c flags t, stringsTrimRight line "\r\n" ≠ "exit" →
      find (sessionWords line) = .ok (c, flags) →
      ¬ (c.name = "login" ∨ c.name = "configure") →
      c.parseFlags flags s = (t, none) → c.run = none → c.runE = none →
      loginLine find line s =
        ([.find (sessionWords line), .parseFlags c.name flags,
          .println "command is unable to run"], t, none)) ∧
    (∀ line s c flags t runE u err, stringsTrimRight line "\r\n" ≠ "exit" →
      find (sessionWords line) = .ok (c, flags) →
      ¬ (c.name = "login" ∨ c.name = "configure") →
      c.parseFlags flags s = (t, none) → c.run = none → c.runE = some runE →
      runE (sessionArgs (sessionWords line) flags) t = (u, some err) →
      (c.name ≠ logoutCmdName →
        loginLine find line s =
          ([.find (sessionWords line), .parseFlags c.name flags,
            .runE c.name (sessionArgs (sessionWords line) flags), .printErr err, .println ""],
            u, none)) ∧
      (c.name = logoutCmdName →
        loginLine find line s =
          ([.find (sessionWords line), .parseFlags c.name flags,
            .runE c.name (sessionArgs (sessionWords line) flags), .printErr err],
            u, some (.exit 1)))) ∧
    (∀ line reads s ev t, loginLine find line s = (ev, t, none) →
      loginLoop find readErr (line :: reads) s =
        (.prompt :: ev ++ (loginLoop find readErr reads t).1,
          (loginLoop find readErr reads t).2)) ∧
    (∀ line s t ev e, loginLine find line s = (ev, t, some e) →
      (stringsTrimRight line "\r\n" = "exit" ∧ ev = [] ∧ t = s ∧ e = .exit 0) ∨
      (stringsTrimRight line "\r\n" ≠ "exit" ∧ ∃ c flags s1,
        find (sessionWords line) = .ok (c, flags) ∧
        c.name = logoutCmdName ∧ c.parseFlags flags s = (s1, none) ∧
        ((∃ run, c.run = some run ∧ e = .exit 0 ∧
            t = run (sessionArgs (sessionWords line) flags) s1) ∨
          (∃ runE, c.run = none ∧ c.runE = some runE ∧
            ((e = .exit 0 ∧
                runE (sessionArgs (sessionWords line) flags) s1 = (t, none)) ∨
              (∃ err, e = .exit 1 ∧
                runE (sessionArgs (sessionWords line) flags) s1 = (t, some err))))))) ∧
    (∀ reads s,
      (∃ t, afterLines find reads s = some t ∧
        (loginLoop find readErr reads s).2 = (t, .returned (some readErr))) ∨
      (∃ before line after t ev t1 e, reads = before ++ line :: after ∧
        afterLines find before s = some t ∧ loginLine find line t = (ev, t1, some e) ∧
        (loginLoop find readErr reads s).2 = (t1, e))) := by
  refine ⟨?_, ?_, ?_, ?_, ?_, ?_, ?_⟩
  · intro line s err hexit hf
    simp only [sessionWords] at hf ⊢
    simp [loginLine, hexit, hf]
  · intro line s c flags t err hexit hf hname hp
    simp only [sessionWords] at hf ⊢
    simp [loginLine, hexit, hf, hname, hp]
  · intro line s c flags t hexit hf hname hp hr hre
    simp only [sessionWords] at hf ⊢
    simp [loginLine, hexit, hf, hname, hp, hr, hre]
  · intro line s c flags t runE u err hexit hf hname hp hr hre hres
    simp only [sessionWords, sessionArgs] at hf hres ⊢
    constructor
    · intro hl
      simp only [loginLine, hexit, if_false, hf, hname, hp, hr, hre, hres, if_neg hl]
      rfl
    · intro hl
      simp only [loginLine, hexit, if_false, hf, hname, hp, hr, hre, hres, if_pos hl]
      rfl
  · intro line reads s ev t hl
    simp [loginLoop, hl]
  · intro line s t ev e h
    exact loginLine_some find line s t ev e h
  · intro reads s
    exact loginLoop_end find readErr reads s

/-- C11, at a session on the sample command tree: an unknown word, a
flag-parse error, a command without run function and a command that returns an
error are each printed and followed by the next prompt; the session ends with
status 1 at `logout`, whose `RunE` returns an error, and the line after it is
not handled. -/
theorem session_ends_only_witness :
    loginLine sampleFind "nope\n" 0 =
      ([.find ["nope"], .printErr (.external "unknown command")], 0, none) ∧
    loginLoop sampleFind (.external "EOF")
        ["nope\n", "user --x\n", "broken\n", "connectors\n", "contexts\n", "logout\n",
          "contexts\n"] 0 =
      ([.prompt, .find ["nope"], .printErr (.external "unknown command"),
        .prompt, .find ["user", "--x"], .parseFlags "user" ["--x"],
          .printErr (.external "unknown flag: --x"),
        .prompt, .find ["broken"], .parseFlags "broken" [],
          .println "command is unable to run",
        .prompt, .find ["connectors"], .parseFlags "connectors" [], .runE "connectors" [],
          .printErr (.external "connection refused"), .println "",
        .prompt, .find ["contexts"], .parseFlags "contexts" [], .runE "contexts" [],
          .println "",
        .prompt, .find ["logout"], .parseFlags "logout" [], .runE "logout" [],
          .printErr (.external "token expired")],
        3, .exit 1) :=
  ⟨(session_ends_only sampleFind (.external "EOF")).1 "nope\n" 0 _ (by decide) rfl,
    by decide⟩

end LensesCli
